import Mathlib

set_option maxRecDepth 65536

/-!
Verification of the answer-synthesis engine (src/synthesizer.py).

Python strings are modelled as `List Char` (`Str`): Python `len`, slicing,
`startswith`, `in` and `+` become `List.length`, `List.take`,
`List.isPrefixOf`, infix search and `++` on the character list.  `str.lower`
is modelled by `Char.toLower` (ASCII case folding, which covers every marker
string the code matches on).  A tool output (`output` field of a result
record) is a dynamically typed Python value: a string, a dict (modelled by
its key list together with its `str()` rendering, since the code never reads
dict values), or some other object (modelled by its `str()` rendering).
Operations that would raise in Python (`.lower()` on a dict, `str + dict`,
slicing a dict, ...) are modelled in the `Except PyErr` monad, so that
raising and returning are distinguished.
-/

abbrev Str := List Char

def S (s : String) : Str := s.data

inductive PyVal where
  | str (s : Str)
  | dict (keys : List Str) (rep : Str)
  | other (rep : Str)
deriving DecidableEq

inductive PyErr where
  | attributeError
  | typeError
deriving DecidableEq

/-- A well-typed tool result record `{tool, status, output}` as consumed by the
synthesizer (the `.get` defaults in the Python never fire on such records). -/
structure ToolResult where
  tool : Str
  status : Str
  output : PyVal
deriving DecidableEq

/-- Python `s.lower()` for a string (ASCII folding). -/
def lowerStr (s : Str) : Str := s.map Char.toLower

/-- Python `p in l` for strings: `p` occurs as a contiguous substring of `l`. -/
def listContains (p : Str) : Str → Bool
  | [] => p.isEmpty
  | c :: t => p.isPrefixOf (c :: t) || listContains p t

/-- Python whitespace for `str.strip()` (ASCII part). -/
def isPySpace (c : Char) : Bool :=
  c = ' ' || c = '\t' || c = '\n' || c = '\r' || c = '\x0B' || c = '\x0C'

/-- Python `s.strip()`. -/
def pyStrip (s : Str) : Str :=
  ((s.dropWhile isPySpace).reverse.dropWhile isPySpace).reverse

/-- Python `s.split('\n')`. -/
def splitNl : Str → List Str
  | [] => [[]]
  | c :: t =>
    if c = '\n' then [] :: splitNl t
    else
      match splitNl t with
      | [] => [[c]]
      | h :: r => (c :: h) :: r

/-- Python `"\n".join(l)`. -/
def joinNl : List Str → Str
  | [] => []
  | [x] => x
  | x :: y :: r => x ++ S "\n" ++ joinNl (y :: r)

/-- Python dict assignment `d[k] = v` (overwrite in place, else append;
insertion order is kept, as in Python 3 dicts). -/
def dictSet (d : List (Str × PyVal)) (k : Str) (v : PyVal) : List (Str × PyVal) :=
  if d.any (fun kv => kv.1 = k) then
    d.map (fun kv => if kv.1 = k then (k, v) else kv)
  else d ++ [(k, v)]

/-- Python dict lookup `d[k]` / `k in d`. -/
def dictGet (d : List (Str × PyVal)) (k : Str) : Option PyVal :=
  (d.find? (fun kv => kv.1 = k)).map (fun kv => kv.2)

def dictHas (d : List (Str × PyVal)) (k : Str) : Bool := (dictGet d k).isSome

/-- Python `len(v)`: length of a string, number of keys of a dict,
`TypeError` on other objects (e.g. `len(3)`). -/
def pyLen : PyVal → Except PyErr Nat
  | .str s => .ok s.length
  | .dict keys _ => .ok keys.length
  | .other _ => .error .typeError

/-- Python `needle in v`: substring test on strings, key membership on dicts,
`TypeError` on non-iterable objects. -/
def pyIn (needle : Str) : PyVal → Except PyErr Bool
  | .str s => .ok (listContains needle s)
  | .dict keys _ => .ok (keys.contains needle)
  | .other _ => .error .typeError

/-- A string-only operation written as an operator (`answer += v`, `v[:800]`):
`TypeError` when `v` is not a string. -/
def pyStrOp : PyVal → Except PyErr Str
  | .str s => .ok s
  | _ => .error .typeError

/-- A string-only method access (`v.lower()`, `v.startswith(..)`, `v.split(..)`):
`AttributeError` when `v` is not a string. -/
def pyStrAttr : PyVal → Except PyErr Str
  | .str s => .ok s
  | _ => .error .attributeError

/-- Python `str(v)` / f-string interpolation (total). -/
def pyStr : PyVal → Str
  | .str s => s
  | .dict _ rep => rep
  | .other rep => rep

/-! ## The Outcome Filter (synthesizer.py lines 26-42) -/

/-- One iteration of the collection loop of lines 27-42.  Dict outputs are
stored as is; string outputs are stored when truthy (non-empty) and not
`"Error:"`-prefixed; any other object is coerced with `str`. -/
def collectStep (outputs : List (Str × PyVal)) (result : ToolResult) :
    List (Str × PyVal) :=
  if result.status = S "success" then
    match result.output with
    | .dict keys rep => dictSet outputs result.tool (.dict keys rep)
    | .str s =>
      if s ≠ [] ∧ (S "Error:").isPrefixOf s = false then
        dictSet outputs result.tool (.str s)
      else outputs
    | .other rep => dictSet outputs result.tool (.str rep)
  else outputs

/-- Lines 26-42: collect successful outputs into the `outputs` dict. -/
def collectOutputs (execution_results : List ToolResult) : List (Str × PyVal) :=
  execution_results.foldl collectStep []

def NO_RESULTS : Str :=
  S "❌ **No results were generated.** The query could not be processed successfully."

/-! ## Generated-file scan (lines 95-102 and 163-170; identical loops) -/

/-- One iteration of the `files_generated` loop: `output.lower()` raises
`AttributeError` on non-string raw outputs. -/
def scanStep (files : List (Str × Str)) (result : ToolResult) :
    Except PyErr (List (Str × Str)) :=
  match result.output with
  | .str output =>
    if listContains (S "successfully created") (lowerStr output)
        || listContains (S "generated") (lowerStr output) then
      if listContains (S ".png") output || listContains (S "Chart") output then
        .ok (files ++ [(S "chart", output)])
      else if listContains (S ".pdf") output || listContains (S "PDF") output then
        .ok (files ++ [(S "pdf", output)])
      else .ok files
    else .ok files
  | _ => .error .attributeError

def trackFilesAux (files : List (Str × Str)) :
    List ToolResult → Except PyErr (List (Str × Str))
  | [] => .ok files
  | r :: rest =>
    match scanStep files r with
    | .error e => .error e
    | .ok files2 => trackFilesAux files2 rest

def trackFiles (execution_results : List ToolResult) : Except PyErr (List (Str × Str)) :=
  trackFilesAux [] execution_results

/-- One line of the generated-resources listing (lines 106-110 / 181-185). -/
def renderFileStep (acc : Str) (ft : Str × Str) : Str :=
  if ft.1 = S "chart" then acc ++ S "📈 " ++ ft.2 ++ S "\n"
  else acc ++ S "📄 " ++ ft.2 ++ S "\n"

/-- Lines 104-111 / 179-186: render the generated-resources section
(empty string when no files were collected). -/
def resourcesSection (files : List (Str × Str)) : Str :=
  if files = [] then []
  else
    S "## 📊 Generated Resources\n\n" ++ files.foldl renderFileStep [] ++ S "\n"

/-! ## Section synthesizers (lines 195-274) -/

/-- The fixed demonstration-mode paragraph of `_synthesize_arxiv_papers`. -/
def SAMPLE_PARA (query : Str) : Str :=
  S "Based on the academic research related to **\"" ++ query ++
  S "\"**, several important papers have been published:\n\n**Research Themes:**\n- The field shows active research with multiple recent publications\n- Key areas of focus include theoretical foundations and practical applications\n- Current work explores novel approaches and methodologies\n\n**Note:** This is a demonstration of the ArXiv integration. In a live system with a valid ArXiv API connection, you would see actual paper titles, authors, abstracts, and publication details from the research database.\n\nTo access real academic papers, ensure:\n1. Internet connectivity is available\n2. The ArXiv API is accessible\n3. Your query matches indexed research topics"

/-- `_synthesize_arxiv_papers` on a string input (the `paper_count` local of the
Python is dead code and is not modelled). -/
def synthArxivP (query arxiv_output : Str) : Str :=
  if listContains (S "Sample Paper") arxiv_output then SAMPLE_PARA query
  else
    (splitNl arxiv_output).foldl
      (fun summary line =>
        if (S "**").isPrefixOf (pyStrip line) then
          summary ++ S "- " ++ pyStrip line ++ S "\n"
        else summary)
      (S "Found relevant academic research on **" ++ query ++ S "**:\n\n")

/-- `_synthesize_arxiv_papers` (lines 195-224); `.split` raises on a dict. -/
def synthArxiv (query : Str) (arxiv_output : PyVal) : Except PyErr Str :=
  match pyIn (S "Sample Paper") arxiv_output with
  | .error e => .error e
  | .ok b =>
    if b then .ok (SAMPLE_PARA query)
    else
      match pyStrAttr arxiv_output with
      | .error e => .error e
      | .ok s =>
        .ok ((splitNl s).foldl
          (fun summary line =>
            if (S "**").isPrefixOf (pyStrip line) then
              summary ++ S "- " ++ pyStrip line ++ S "\n"
            else summary)
          (S "Found relevant academic research on **" ++ query ++ S "**:\n\n"))

def NO_NEWS (query : Str) : Str :=
  S "No recent news articles were found specifically about " ++ query ++
  S ". This could mean:\n- The topic is highly specialized\n- No major news coverage in recent days\n- Try a broader search term for more results"

/-- `_synthesize_news` on a string input (the `article_count` local is dead code). -/
def synthNewsP (query news_output : Str) : Str :=
  if listContains (S "No recent news") news_output ∨ news_output.length < 100 then
    NO_NEWS query
  else
    (splitNl news_output).foldl
      (fun summary line =>
        if listContains (S "**Article") line || listContains (S "**Title") line then
          summary ++ S "- " ++ pyStrip line ++ S "\n"
        else summary)
      (S "Recent news coverage on **" ++ query ++ S "**:\n\n")

/-- `_synthesize_news` (lines 227-243). -/
def synthNews (query : Str) (news_output : PyVal) : Except PyErr Str :=
  match pyIn (S "No recent news") news_output with
  | .error e => .error e
  | .ok b =>
    if b then .ok (NO_NEWS query)
    else
      match pyLen news_output with
      | .error e => .error e
      | .ok len =>
        if len < 100 then .ok (NO_NEWS query)
        else
          match pyStrAttr news_output with
          | .error e => .error e
          | .ok s =>
            .ok ((splitNl s).foldl
              (fun summary line =>
                if listContains (S "**Article") line || listContains (S "**Title") line then
                  summary ++ S "- " ++ pyStrip line ++ S "\n"
                else summary)
              (S "Recent news coverage on **" ++ query ++ S "**:\n\n"))

/-- `_generate_key_insights` (lines 246-274): a pure function of the query and
of which keys are present in `outputs`. -/
def generate_key_insights (query : Str) (outputs : List (Str × PyVal)) : Str :=
  let insights : List Str :=
    (if dictHas outputs (S "wikipedia_search") then
      [S "✓ **Foundational knowledge** about " ++ query ++
       S " has been retrieved from Wikipedia"] else []) ++
    (if dictHas outputs (S "arxiv_summarizer") then
      [S "✓ **Academic research papers** have been identified and summarized"] else []) ++
    (if dictHas outputs (S "news_fetcher") then
      [S "✓ **Current news** and recent developments have been analyzed"] else []) ++
    (if dictHas outputs (S "sentiment_analyzer") then
      [S "✓ **Sentiment analysis** provides insights into public perception"] else []) ++
    (if dictHas outputs (S "qa_engine") then
      [S "✓ **Direct answer** has been generated based on available knowledge"] else [])
  if insights = [] then
    S "Based on the available information, here's what we know about **" ++ query ++
    S "**: The system has gathered relevant data from multiple sources to provide you with a comprehensive overview."
  else
    S "**Information Sources:**\n" ++ joinNl insights ++
    S "\n\nThis comprehensive analysis of **" ++ query ++
    S "** combines information from multiple authoritative sources to give you a complete picture."

/-! ## The QA-primary path (lines 51-116) -/

/-- Lines 67-70 / 85-88: one secondary source block of the Factual Sources
section (arxiv papers, news); returns the emitted text and the
`has_sources` contribution. -/
def srcSec (outputs : List (Str × PyVal)) (key hdr : Str) :
    Except PyErr (Str × Bool) :=
  match dictGet outputs key with
  | none => .ok ([], false)
  | some v =>
    match pyLen v with
    | .error e => .error e
    | .ok len =>
      if len > 50 then
        match pyStrOp v with
        | .error e => .error e
        | .ok s => .ok (hdr ++ s ++ S "\n\n", true)
      else .ok ([], false)

def WIKI_HDR : Str := S "### 📖 Wikipedia Background\n\n"

def DETAILS_OPEN : Str := S "<details><summary>Show full Wikipedia content</summary>\n\n"

def DETAILS_CLOSE : Str := S "\n\n</details>\n\n"

/-- Lines 73-82: the Wikipedia block of the Factual Sources section, with the
800-character truncation plus collapsible full text. -/
def wikiSrcSec (outputs : List (Str × PyVal)) : Except PyErr (Str × Bool) :=
  match dictGet outputs (S "wikipedia_search") with
  | none => .ok ([], false)
  | some v =>
    match pyLen v with
    | .error e => .error e
    | .ok len =>
      if len > 50 then
        match pyStrOp v with
        | .error e => .error e
        | .ok wiki_text =>
          if wiki_text.length > 800 then
            .ok (WIKI_HDR ++ wiki_text.take 800 ++ S "...\n\n" ++
                 DETAILS_OPEN ++ wiki_text ++ DETAILS_CLOSE, true)
          else .ok (WIKI_HDR ++ wiki_text ++ S "\n\n", true)
      else .ok ([], false)

def TITLE (user_query : Str) : Str := S "# 📖 Answer to: " ++ user_query ++ S "\n\n"

def FACTUAL_HDR : Str :=
  S "## 📚 Factual Sources Used (Verify Claims Above)\n\n*The AI answer above is grounded in the following factual sources. Cross-reference to verify accuracy:*\n\n"

def NO_SOURCES_NOTE : Str :=
  S "*Note: This answer is based on the LLM's general knowledge. No specific research papers or news articles were retrieved for verification.*\n\n"

def FOOTER_QA : Str :=
  S "---\n\n✅ **Analysis Complete** | Comprehensive answer generated using AI with supporting research from multiple sources.\n"

def FOOTER_MAIN : Str :=
  S "---\n\n✅ **Analysis Complete** | Information gathered from multiple sources and synthesized for your query.\n"

/-- Lines 56-116: the QA-primary branch (`qa_engine` output promoted to be the
whole answer, with factual sources, resource scan and footer). -/
def qaPath (user_query : Str) (execution_results : List ToolResult)
    (outputs : List (Str × PyVal)) (qa_answer : PyVal) : Except PyErr Str :=
  match pyStrOp qa_answer with
  | .error e => .error e
  | .ok qs =>
    match srcSec outputs (S "arxiv_summarizer") (S "### 🔬 Academic Papers Found\n\n") with
    | .error e => .error e
    | .ok arx =>
      match wikiSrcSec outputs with
      | .error e => .error e
      | .ok wik =>
        match srcSec outputs (S "news_fetcher") (S "### 📰 Recent News Articles\n\n") with
        | .error e => .error e
        | .ok nws =>
          match trackFiles execution_results with
          | .error e => .error e
          | .ok files =>
            .ok (TITLE user_query ++ qs ++ S "\n\n" ++ S "---\n\n" ++ FACTUAL_HDR ++
                 arx.1 ++ wik.1 ++ nws.1 ++
                 (if arx.2 || wik.2 || nws.2 then [] else NO_SOURCES_NOTE) ++
                 resourcesSection files ++ FOOTER_QA)

/-! ## The multi-section fallback path (lines 117-192) -/

/-- Lines 119-121: the Quick Answer block shown when a `qa_engine` output is
present but short or a refusal. -/
def quickAnswer (qa_answer : PyVal) : Str :=
  S "## 💡 Quick Answer\n\n" ++ pyStr qa_answer ++ S "\n\n" ++ S "---\n\n"

/-- Lines 127-133: the Background (Wikipedia) section. -/
def bgSec (outputs : List (Str × PyVal)) : Except PyErr (Str × Bool) :=
  match dictGet outputs (S "wikipedia_search") with
  | none => .ok ([], false)
  | some v =>
    match pyLen v with
    | .error e => .error e
    | .ok len =>
      if len > 50 then
        match pyStrOp v with
        | .error e => .error e
        | .ok s => .ok (S "## 📚 Background\n\n" ++ s ++ S "\n\n", true)
      else .ok ([], false)

/-- Lines 136-143: the Academic Research section. -/
def arxSec (user_query : Str) (outputs : List (Str × PyVal)) :
    Except PyErr (Str × Bool) :=
  match dictGet outputs (S "arxiv_summarizer") with
  | none => .ok ([], false)
  | some v =>
    match pyIn (S "Found") v with
    | .error e => .error e
    | .ok b1 =>
      if b1 then
        match pyIn (S "papers") v with
        | .error e => .error e
        | .ok b2 =>
          if b2 then
            match synthArxiv user_query v with
            | .error e => .error e
            | .ok syn => .ok (S "## 🔬 Academic Research\n\n" ++ syn ++ S "\n\n", true)
          else .ok ([], false)
      else .ok ([], false)


/-- Lines 146-152: the Recent Developments (news) section. -/
def newsSec (user_query : Str) (outputs : List (Str × PyVal)) :
    Except PyErr (Str × Bool) :=
  match dictGet outputs (S "news_fetcher") with
  | none => .ok ([], false)
  | some v =>
    match pyLen v with
    | .error e => .error e
    | .ok len =>
      if len > 50 then
        match synthNews user_query v with
        | .error e => .error e
        | .ok syn => .ok (S "## 📰 Recent Developments\n\n" ++ syn ++ S "\n\n", true)
      else .ok ([], false)

/-- Lines 155-160: the Sentiment Analysis section. -/
def sentSec (outputs : List (Str × PyVal)) : Except PyErr (Str × Bool) :=
  match dictGet outputs (S "sentiment_analyzer") with
  | none => .ok ([], false)
  | some v =>
    match pyLen v with
    | .error e => .error e
    | .ok len =>
      if len > 20 then
        match pyStrOp v with
        | .error e => .error e
        | .ok s => .ok (S "## 💭 Sentiment Analysis\n\n" ++ s ++ S "\n\n", true)
      else .ok ([], false)

/-- Lines 123-192: strategy 2, the multi-section synthesis (the `quick`
argument is the already-rendered Quick Answer block, or empty). -/
def fallbackPath (user_query : Str) (execution_results : List ToolResult)
    (outputs : List (Str × PyVal)) (quick : Str) : Except PyErr Str :=
  match bgSec outputs with
  | .error e => .error e
  | .ok bg =>
    match arxSec user_query outputs with
    | .error e => .error e
    | .ok ar =>
      match newsSec user_query outputs with
      | .error e => .error e
      | .ok nw =>
        match sentSec outputs with
        | .error e => .error e
        | .ok se =>
          match trackFiles execution_results with
          | .error e => .error e
          | .ok files =>
            .ok (TITLE user_query ++ quick ++ bg.1 ++ ar.1 ++ nw.1 ++ se.1 ++
                 (if bg.2 || ar.2 || nw.2 || se.2 then
                   S "## 🎯 Key Insights\n\n" ++
                   generate_key_insights user_query outputs ++ S "\n\n"
                  else []) ++
                 resourcesSection files ++ FOOTER_MAIN)

/-- `synthesize_answer` (lines 12-192).  The `plan` argument is accepted and
ignored, as in the source. -/
def synthesize_answer (user_query : Str) (execution_results : List ToolResult)
    (_plan : PyVal) : Except PyErr Str :=
  let outputs := collectOutputs execution_results
  if outputs = [] then .ok NO_RESULTS
  else
    match dictGet outputs (S "qa_engine") with
    | none => fallbackPath user_query execution_results outputs []
    | some qa_answer =>
      match pyLen qa_answer with
      | .error e => .error e
      | .ok len =>
        if len > 300 then
          match pyStrAttr qa_answer with
          | .error e => .error e
          | .ok qs =>
            if (S "I'm sorry").isPrefixOf qs then
              fallbackPath user_query execution_results outputs (quickAnswer qa_answer)
            else qaPath user_query execution_results outputs qa_answer
        else fallbackPath user_query execution_results outputs (quickAnswer qa_answer)

/-- No nonempty proper prefix of the pattern `p` is a suffix of `t`: then an
occurrence of `p` in `t ++ u` cannot straddle the boundary.  Decidable, for
use with concrete templates `t`. -/
def noCrossL (p t : Str) : Bool :=
  (List.range p.length).all fun i => decide (i = 0) || !((p.take i).isSuffixOf t)

/-- Line 289: the tool names of the successful records. -/
def successfulTools (execution_results : List ToolResult) : List Str :=
  (execution_results.filter (fun r => r.status = S "success")).map (fun r => r.tool)

/-- Lines 296-306: the per-category clauses of the executive summary. -/
def summaryClauses (successful_tools : List Str) : Str :=
  (if successful_tools.contains (S "qa_engine") then
    S "A direct answer has been provided based on available knowledge. " else []) ++
  (if successful_tools.contains (S "wikipedia_search") then
    S "Background information has been retrieved from Wikipedia. " else []) ++
  (if successful_tools.contains (S "arxiv_summarizer") then
    S "Academic research papers have been identified and summarized. " else []) ++
  (if successful_tools.contains (S "news_fetcher") then
    S "Recent news articles have been analyzed. " else [])

/-- `create_executive_summary` (lines 277-309). -/
def create_executive_summary (user_query : Str)
    (execution_results : List ToolResult) : Str :=
  let successful_tools := successfulTools execution_results
  if successful_tools = [] then S "No results could be generated for this query."
  else
    S "Regarding **" ++ user_query ++ S "**: " ++
    summaryClauses successful_tools ++
    S "Total of " ++ (Nat.repr successful_tools.length).data ++
    S " information sources consulted."

/-! ## Pure forms of the answer sections

When every value stored in `outputs` is a string, the `Except`-typed section
builders above never raise; the following total functions give their values,
which the agreement lemmas below establish. -/

/-- Every value of the outputs dict is a string. -/
def valsStr (outputs : List (Str × PyVal)) : Prop :=
  ∀ kv ∈ outputs, ∃ s, kv.2 = PyVal.str s

/-- Every raw record output is a string. -/
def allStr (execution_results : List ToolResult) : Prop :=
  ∀ r ∈ execution_results, ∃ s, r.output = PyVal.str s

/-- A text block that does not contain the pattern `p` and, when non-empty,
starts with a character foreign to `p` (so no occurrence of `p` in a
concatenation can reach into it from the left). -/
def SafeH (p y : Str) : Prop :=
  ¬ p <:+: y ∧ (y = [] ∨ ∃ c, y.head? = some c ∧ c ∉ p)

def srcSecP (outputs : List (Str × PyVal)) (key hdr : Str) : Str :=
  match dictGet outputs key with
  | some (PyVal.str s) => if s.length > 50 then hdr ++ s ++ S "\n\n" else []
  | _ => []

def srcSecFlag (outputs : List (Str × PyVal)) (key : Str) : Bool :=
  match dictGet outputs key with
  | some (PyVal.str s) => decide (s.length > 50)
  | _ => false

def wikiSrcP (outputs : List (Str × PyVal)) : Str :=
  match dictGet outputs (S "wikipedia_search") with
  | some (PyVal.str s) =>
    if s.length > 50 then
      if s.length > 800 then
        WIKI_HDR ++ s.take 800 ++ S "...\n\n" ++ DETAILS_OPEN ++ s ++ DETAILS_CLOSE
      else WIKI_HDR ++ s ++ S "\n\n"
    else []
  | _ => []

def wikiFlag (outputs : List (Str × PyVal)) : Bool :=
  match dictGet outputs (S "wikipedia_search") with
  | some (PyVal.str s) => decide (s.length > 50)
  | _ => false

def bgSecP (outputs : List (Str × PyVal)) : Str :=
  match dictGet outputs (S "wikipedia_search") with
  | some (PyVal.str s) =>
    if s.length > 50 then S "## 📚 Background\n\n" ++ s ++ S "\n\n" else []
  | _ => []

def arxSecP (user_query : Str) (outputs : List (Str × PyVal)) : Str :=
  match dictGet outputs (S "arxiv_summarizer") with
  | some (PyVal.str s) =>
    if listContains (S "Found") s && listContains (S "papers") s then
      S "## 🔬 Academic Research\n\n" ++ synthArxivP user_query s ++ S "\n\n"
    else []
  | _ => []

def arxFlag (outputs : List (Str × PyVal)) : Bool :=
  match dictGet outputs (S "arxiv_summarizer") with
  | some (PyVal.str s) => listContains (S "Found") s && listContains (S "papers") s
  | _ => false

def newsSecP (user_query : Str) (outputs : List (Str × PyVal)) : Str :=
  match dictGet outputs (S "news_fetcher") with
  | some (PyVal.str s) =>
    if s.length > 50 then
      S "## 📰 Recent Developments\n\n" ++ synthNewsP user_query s ++ S "\n\n"
    else []
  | _ => []

def newsFlag (outputs : List (Str × PyVal)) : Bool :=
  match dictGet outputs (S "news_fetcher") with
  | some (PyVal.str s) => decide (s.length > 50)
  | _ => false

def sentSecP (outputs : List (Str × PyVal)) : Str :=
  match dictGet outputs (S "sentiment_analyzer") with
  | some (PyVal.str s) =>
    if s.length > 20 then S "## 💭 Sentiment Analysis\n\n" ++ s ++ S "\n\n" else []
  | _ => []

def sentFlag (outputs : List (Str × PyVal)) : Bool :=
  match dictGet outputs (S "sentiment_analyzer") with
  | some (PyVal.str s) => decide (s.length > 20)
  | _ => false

/-! ## Substring (infix) machinery -/

lemma listContains_iff (p l : Str) : listContains p l = true ↔ p <:+: l := by
  induction l with
  | nil =>
    simp [listContains, List.isEmpty_iff]
  | cons c t ih =>
    simp only [listContains, Bool.or_eq_true, ih, List.isPrefixOf_iff_prefix]
    exact (List.infix_cons_iff).symm

lemma not_infix_of_listContains (p l : Str) (h : listContains p l = false) :
    ¬ p <:+: l := by
  rw [← listContains_iff, h]
  simp

lemma infix_app_left {p y : Str} (x : Str) (h : p <:+: y) : p <:+: x ++ y := by
  obtain ⟨s, t, rfl⟩ := h
  exact ⟨x ++ s, t, by simp⟩

lemma infix_app_right {p x : Str} (y : Str) (h : p <:+: x) : p <:+: x ++ y := by
  obtain ⟨s, t, rfl⟩ := h
  exact ⟨s, t ++ y, by simp⟩

/-- An occurrence of `p` in `xs ++ ys` lies in `xs`, lies in `ys`, or straddles
the boundary, in which case `p` splits as `a ++ b` with `a` a nonempty suffix
of `xs` and `b` a nonempty prefix of `ys`. -/
lemma infix_append_cases {p xs ys : Str} (h : p <:+: xs ++ ys) :
    p <:+: xs ∨ p <:+: ys ∨
      ∃ a b, a ++ b = p ∧ a ≠ [] ∧ b ≠ [] ∧ a <:+ xs ∧ b <+: ys := by
  obtain ⟨s, t, hst⟩ := h
  have hs_pre : s <+: xs ++ ys := ⟨p ++ t, by rw [← hst]; simp⟩
  by_cases h1 : s.length + p.length ≤ xs.length
  · left
    have hs : s <+: xs := by
      refine List.prefix_of_prefix_length_le hs_pre (List.prefix_append xs ys) ?_
      omega
    obtain ⟨u, hu⟩ := hs
    have hcut : p ++ t = u ++ ys := by
      have h2 : s ++ (p ++ t) = s ++ (u ++ ys) := by
        rw [← List.append_assoc, ← List.append_assoc, hst, hu]
      exact List.append_cancel_left h2
    have hlen_u : p.length ≤ u.length := by
      have : xs.length = s.length + u.length := by rw [← hu]; simp
      omega
    have hpu : p <+: u :=
      List.prefix_of_prefix_length_le ⟨t, hcut⟩ (List.prefix_append u ys) hlen_u
    obtain ⟨w, hw⟩ := hpu
    exact ⟨s, w, by rw [List.append_assoc, hw, hu]⟩
  · by_cases h2 : xs.length ≤ s.length
    · right; left
      have hx : xs <+: s :=
        List.prefix_of_prefix_length_le (List.prefix_append xs ys) hs_pre h2
      obtain ⟨v, hv⟩ := hx
      refine ⟨v, t, ?_⟩
      have h2 : xs ++ (v ++ p ++ t) = xs ++ ys := by
        rw [← List.append_assoc, ← List.append_assoc, hv, hst]
      exact List.append_cancel_left h2
    · right; right
      have hs : s <+: xs := by
        refine List.prefix_of_prefix_length_le hs_pre (List.prefix_append xs ys) ?_
        omega
      obtain ⟨u, hu⟩ := hs
      have hlen_xs : xs.length = s.length + u.length := by rw [← hu]; simp
      have hu_ne : u ≠ [] := by
        intro h0
        rw [h0] at hlen_xs
        simp at hlen_xs
        omega
      have hcut : p ++ t = u ++ ys := by
        have h2 : s ++ (p ++ t) = s ++ (u ++ ys) := by
          rw [← List.append_assoc, ← List.append_assoc, hst, hu]
        exact List.append_cancel_left h2
      have hup : u <+: p := by
        refine List.prefix_of_prefix_length_le ⟨ys, hcut.symm⟩ (List.prefix_append p t) ?_
        omega
      obtain ⟨b, hb⟩ := hup
      have hb_ne : b ≠ [] := by
        intro h0
        rw [h0, List.append_nil] at hb
        have : p.length = u.length := by rw [hb]
        omega
      have hby : b <+: ys := by
        refine ⟨t, ?_⟩
        have h2 : u ++ (b ++ t) = u ++ ys := by
          rw [← List.append_assoc, hb, hcut]
        exact List.append_cancel_left h2
      exact ⟨u, b, hb, hu_ne, hb_ne, ⟨s, hu⟩, hby⟩

/-- No boundary-straddling occurrence is possible when the first character of
`ys` does not occur in `p`. -/
lemma not_infix_append_head {p xs ys : Str}
    (hhd : ∀ c, ys.head? = some c → c ∉ p)
    (h1 : ¬ p <:+: xs) (h2 : ¬ p <:+: ys) : ¬ p <:+: xs ++ ys := by
  intro h
  rcases infix_append_cases h with h | h | ⟨a, b, hab, _, hb, _, hby⟩
  · exact h1 h
  · exact h2 h
  · obtain ⟨c, b', rfl⟩ : ∃ c b', b = c :: b' := by
      cases b with
      | nil => exact absurd rfl hb
      | cons c b' => exact ⟨c, b', rfl⟩
    obtain ⟨w, hw⟩ := hby
    have hhead : ys.head? = some c := by rw [← hw]; rfl
    refine hhd c hhead ?_
    rw [← hab]
    exact List.mem_append_right a (List.mem_cons_self c b')

/-- No boundary-straddling occurrence is possible when the last character of
`xs` does not occur in `p`. -/
lemma not_infix_append_last {p xs ys : Str}
    (hl : ∀ c, xs.getLast? = some c → c ∉ p)
    (h1 : ¬ p <:+: xs) (h2 : ¬ p <:+: ys) : ¬ p <:+: xs ++ ys := by
  intro h
  rcases infix_append_cases h with h | h | ⟨a, b, hab, ha, _, hax, _⟩
  · exact h1 h
  · exact h2 h
  · obtain ⟨a', c, rfl⟩ : ∃ a' c, a = a' ++ [c] := by
      rcases List.eq_nil_or_concat a with h0 | ⟨a', c, h'⟩
      · exact absurd h0 ha
      · exact ⟨a', c, by rw [h', List.concat_eq_append]⟩
    obtain ⟨w, hw⟩ := hax
    have hlast : xs.getLast? = some c := by
      rw [← hw, ← List.append_assoc]
      exact List.getLast?_concat _
    refine hl c hlast ?_
    rw [← hab]
    exact List.mem_append_left b (List.mem_append_right a' (List.mem_cons_self c []))

/-- No boundary-straddling occurrence is possible when `noCrossL p xs` holds. -/
lemma not_infix_append_noCrossL {p xs ys : Str}
    (hx : noCrossL p xs = true)
    (h1 : ¬ p <:+: xs) (h2 : ¬ p <:+: ys) : ¬ p <:+: xs ++ ys := by
  intro h
  rcases infix_append_cases h with h | h | ⟨a, b, hab, ha, hb, hax, _⟩
  · exact h1 h
  · exact h2 h
  · have hlen : a.length < p.length := by
      rw [← hab, List.length_append]
      have : 0 < b.length := List.length_pos.mpr hb
      omega
    have hpos : 0 < a.length := List.length_pos.mpr ha
    have htake : p.take a.length = a := by rw [← hab, List.take_left]
    rw [noCrossL, List.all_eq_true] at hx
    have h3 := hx a.length (List.mem_range.mpr hlen)
    rw [Bool.or_eq_true, decide_eq_true_eq, Bool.not_eq_true'] at h3
    rcases h3 with h3 | h3
    · omega
    · rw [htake] at h3
      have : a.isSuffixOf xs = true := List.isSuffixOf_iff_suffix.mpr hax
      rw [this] at h3
      cases h3

/-- Peeling one known-absent character off the front of the right-hand list. -/
lemma not_infix_cons {p : Str} {c : Char} {l : Str} (hp : p ≠ []) (hc : c ∉ p)
    (h : ¬ p <:+: l) : ¬ p <:+: c :: l := by
  intro hh
  rcases List.infix_cons_iff.mp hh with hpre | hinf
  · rcases List.prefix_cons_iff.mp hpre with h0 | ⟨t, rfl, _⟩
    · exact hp h0
    · exact hc (List.mem_cons_self _ _)
  · exact h hinf

lemma not_infix_take {p w : Str} (n : Nat) (h : ¬ p <:+: w) : ¬ p <:+: w.take n :=
  fun hh => h (hh.trans (List.take_prefix n w).isInfix)

/-! ## Provenance of stored outputs and scanned files -/

lemma dictGet_mem {d : List (Str × PyVal)} {k : Str} {v : PyVal}
    (h : dictGet d k = some v) : (k, v) ∈ d := by
  unfold dictGet at h
  obtain ⟨kv, hfind, hv⟩ := Option.map_eq_some'.mp h
  have hpred := List.find?_some hfind
  have hmem := List.mem_of_find?_eq_some hfind
  have hk : kv.1 = k := by simpa using hpred
  have hkv : kv = (k, v) := by
    cases kv
    simp_all
  rwa [hkv] at hmem

lemma mem_dictSet {d : List (Str × PyVal)} {k : Str} {v : PyVal} {kv : Str × PyVal}
    (h : kv ∈ dictSet d k v) : kv ∈ d ∨ kv = (k, v) := by
  unfold dictSet at h
  split at h
  · obtain ⟨kv', hkv', heq⟩ := List.mem_map.mp h
    by_cases hk : kv'.1 = k
    · right
      rw [if_pos hk] at heq
      exact heq.symm
    · left
      rw [if_neg hk] at heq
      rwa [heq] at hkv'
  · rcases List.mem_append.mp h with h | h
    · exact Or.inl h
    · right
      simpa using h

lemma collect_vals_aux :
    ∀ (rs : List ToolResult), allStr rs →
      ∀ acc, ∀ kv ∈ rs.foldl collectStep acc,
        kv ∈ acc ∨ ∃ s, kv.2 = PyVal.str s ∧ ∃ r ∈ rs, r.output = PyVal.str s := by
  intro rs
  induction rs with
  | nil =>
    intro _ acc kv hkv
    exact Or.inl (by simpa using hkv)
  | cons r rest ih =>
    intro hall acc kv hkv
    simp only [List.foldl_cons] at hkv
    have hall' : allStr rest := fun x hx => hall x (List.mem_cons_of_mem r hx)
    rcases ih hall' (collectStep acc r) kv hkv with hin | ⟨s, hs, x, hx, ho⟩
    · obtain ⟨s0, hs0⟩ := hall r (List.mem_cons_self r rest)
      by_cases hst : r.status = S "success"
      · by_cases hc : s0 ≠ [] ∧ (S "Error:").isPrefixOf s0 = false
        · have : collectStep acc r = dictSet acc r.tool (.str s0) := by
            simp [collectStep, hs0, hst, hc]
          rw [this] at hin
          rcases mem_dictSet hin with h | h
          · exact Or.inl h
          · exact Or.inr ⟨s0, by rw [h], r, List.mem_cons_self r rest, hs0⟩
        · have : collectStep acc r = acc := by
            simp [collectStep, hs0, hst, if_neg hc]
          rw [this] at hin
          exact Or.inl hin
      · have : collectStep acc r = acc := by
          simp [collectStep, hst]
        rw [this] at hin
        exact Or.inl hin
    · exact Or.inr ⟨s, hs, x, List.mem_cons_of_mem r hx, ho⟩

/-- Under all-string inputs, every stored output value is the output string of
some record of the input list. -/
lemma collect_prov {rs : List ToolResult} (hall : allStr rs) {kv : Str × PyVal}
    (hkv : kv ∈ collectOutputs rs) :
    ∃ s, kv.2 = PyVal.str s ∧ ∃ r ∈ rs, r.output = PyVal.str s := by
  rcases collect_vals_aux rs hall [] kv hkv with h | h
  · cases h
  · exact h

lemma valsStr_collect {rs : List ToolResult} (hall : allStr rs) :
    valsStr (collectOutputs rs) := by
  intro kv hkv
  obtain ⟨s, hs, -⟩ := collect_prov hall hkv
  exact ⟨s, hs⟩

lemma scanStep_cases (acc : List (Str × Str)) {r : ToolResult} {s0 : Str}
    (ho : r.output = PyVal.str s0) :
    scanStep acc r = .ok acc ∨ scanStep acc r = .ok (acc ++ [(S "chart", s0)]) ∨
      scanStep acc r = .ok (acc ++ [(S "pdf", s0)]) := by
  unfold scanStep
  cases h1 : (listContains (S "successfully created") (lowerStr s0)
      || listContains (S "generated") (lowerStr s0)) with
  | false => left; simp [ho, h1]
  | true =>
    cases h2 : (listContains (S ".png") s0 || listContains (S "Chart") s0) with
    | true => right; left; simp [ho, h1, h2]
    | false =>
      cases h3 : (listContains (S ".pdf") s0 || listContains (S "PDF") s0) with
      | true => right; right; simp [ho, h1, h2, h3]
      | false => left; simp [ho, h1, h2, h3]

lemma trackFilesAux_ok :
    ∀ (rs : List ToolResult), allStr rs →
      ∀ acc, ∃ fs, trackFilesAux acc rs = .ok fs ∧
        (∀ e ∈ acc, e ∈ fs) ∧
        ∀ e ∈ fs, e ∈ acc ∨ ∃ r ∈ rs, r.output = PyVal.str e.2 := by
  intro rs
  induction rs with
  | nil =>
    intro _ acc
    exact ⟨acc, rfl, fun e he => he, fun e he => Or.inl he⟩
  | cons r rest ih =>
    intro hall acc
    obtain ⟨s0, hs0⟩ := hall r (List.mem_cons_self r rest)
    have hall' : allStr rest := fun x hx => hall x (List.mem_cons_of_mem r hx)
    have hr_mem : r ∈ r :: rest := List.mem_cons_self r rest
    rcases scanStep_cases acc hs0 with h | h | h
    · obtain ⟨fs, hfs, hmono, hprov⟩ := ih hall' acc
      refine ⟨fs, by simp [trackFilesAux, h, hfs], hmono, fun e he => ?_⟩
      rcases hprov e he with h' | ⟨x, hx, hxo⟩
      · exact Or.inl h'
      · exact Or.inr ⟨x, List.mem_cons_of_mem r hx, hxo⟩
    · obtain ⟨fs, hfs, hmono, hprov⟩ := ih hall' (acc ++ [(S "chart", s0)])
      refine ⟨fs, by simp [trackFilesAux, h, hfs],
        fun e he => hmono e (List.mem_append_left _ he), fun e he => ?_⟩
      rcases hprov e he with h' | ⟨x, hx, hxo⟩
      · rcases List.mem_append.mp h' with h'' | h''
        · exact Or.inl h''
        · refine Or.inr ⟨r, hr_mem, ?_⟩
          have : e = (S "chart", s0) := by simpa using h''
          rw [this]
          exact hs0
      · exact Or.inr ⟨x, List.mem_cons_of_mem r hx, hxo⟩
    · obtain ⟨fs, hfs, hmono, hprov⟩ := ih hall' (acc ++ [(S "pdf", s0)])
      refine ⟨fs, by simp [trackFilesAux, h, hfs],
        fun e he => hmono e (List.mem_append_left _ he), fun e he => ?_⟩
      rcases hprov e he with h' | ⟨x, hx, hxo⟩
      · rcases List.mem_append.mp h' with h'' | h''
        · exact Or.inl h''
        · refine Or.inr ⟨r, hr_mem, ?_⟩
          have : e = (S "pdf", s0) := by simpa using h''
          rw [this]
          exact hs0
      · exact Or.inr ⟨x, List.mem_cons_of_mem r hx, hxo⟩

/-- Under all-string inputs, the file scan succeeds, and every collected file
text is some record's raw output. -/
lemma trackFiles_ok {rs : List ToolResult} (hall : allStr rs) :
    ∃ fs, trackFiles rs = .ok fs ∧ ∀ e ∈ fs, ∃ r ∈ rs, r.output = PyVal.str e.2 := by
  obtain ⟨fs, hfs, -, hprov⟩ := trackFilesAux_ok rs hall []
  refine ⟨fs, hfs, fun e he => ?_⟩
  rcases hprov e he with h | h
  · cases h
  · exact h

/-! ## Agreement of the Except-typed sections with their pure forms -/

lemma valsStr_get {outputs : List (Str × PyVal)} (hvals : valsStr outputs)
    {k : Str} {v : PyVal} (h : dictGet outputs k = some v) : ∃ s, v = PyVal.str s := by
  obtain ⟨s, hs⟩ := hvals (k, v) (dictGet_mem h)
  exact ⟨s, hs⟩

lemma srcSec_eq (outputs : List (Str × PyVal)) (key hdr : Str)
    (hvals : valsStr outputs) :
    srcSec outputs key hdr = .ok (srcSecP outputs key hdr, srcSecFlag outputs key) := by
  unfold srcSec srcSecP srcSecFlag
  cases hget : dictGet outputs key with
  | none => rfl
  | some v =>
    obtain ⟨s, rfl⟩ := valsStr_get hvals hget
    by_cases hlen : s.length > 50
    · simp [pyLen, pyStrOp, hlen]
    · simp [pyLen, hlen]

lemma wikiSrcSec_eq (outputs : List (Str × PyVal)) (hvals : valsStr outputs) :
    wikiSrcSec outputs = .ok (wikiSrcP outputs, wikiFlag outputs) := by
  unfold wikiSrcSec wikiSrcP wikiFlag
  cases hget : dictGet outputs (S "wikipedia_search") with
  | none => rfl
  | some v =>
    obtain ⟨s, rfl⟩ := valsStr_get hvals hget
    by_cases hlen : s.length > 50
    · by_cases hlen2 : s.length > 800
      · simp [pyLen, pyStrOp, hlen, hlen2]
      · simp [pyLen, pyStrOp, hlen, hlen2]
    · simp [pyLen, hlen]

lemma bgSec_eq (outputs : List (Str × PyVal)) (hvals : valsStr outputs) :
    bgSec outputs = .ok (bgSecP outputs, wikiFlag outputs) := by
  unfold bgSec bgSecP wikiFlag
  cases hget : dictGet outputs (S "wikipedia_search") with
  | none => rfl
  | some v =>
    obtain ⟨s, rfl⟩ := valsStr_get hvals hget
    by_cases hlen : s.length > 50
    · simp [pyLen, pyStrOp, hlen]
    · simp [pyLen, hlen]

lemma synthArxiv_eq (q s : Str) : synthArxiv q (PyVal.str s) = .ok (synthArxivP q s) := by
  unfold synthArxiv synthArxivP
  by_cases h : listContains (S "Sample Paper") s = true
  · simp [pyIn, h]
  · simp [pyIn, pyStrAttr, h]

lemma synthNews_eq (q s : Str) : synthNews q (PyVal.str s) = .ok (synthNewsP q s) := by
  unfold synthNews synthNewsP
  by_cases h1 : listContains (S "No recent news") s = true
  · simp [pyIn, h1]
  · by_cases h2 : s.length < 100
    · simp [pyIn, pyLen, h1, h2]
    · simp [pyIn, pyLen, pyStrAttr, h1, h2]

lemma arxSec_eq (q : Str) (outputs : List (Str × PyVal)) (hvals : valsStr outputs) :
    arxSec q outputs = .ok (arxSecP q outputs, arxFlag outputs) := by
  unfold arxSec arxSecP arxFlag
  cases hget : dictGet outputs (S "arxiv_summarizer") with
  | none => rfl
  | some v =>
    obtain ⟨s, rfl⟩ := valsStr_get hvals hget
    by_cases h1 : listContains (S "Found") s = true
    · by_cases h2 : listContains (S "papers") s = true
      · simp [pyIn, h1, h2, synthArxiv_eq]
      · simp [pyIn, h1, h2]
    · simp [pyIn, h1]

lemma newsSec_eq (q : Str) (outputs : List (Str × PyVal)) (hvals : valsStr outputs) :
    newsSec q outputs = .ok (newsSecP q outputs, newsFlag outputs) := by
  unfold newsSec newsSecP newsFlag
  cases hget : dictGet outputs (S "news_fetcher") with
  | none => rfl
  | some v =>
    obtain ⟨s, rfl⟩ := valsStr_get hvals hget
    by_cases hlen : s.length > 50
    · simp [pyLen, hlen, synthNews_eq]
    · simp [pyLen, hlen]

lemma sentSec_eq (outputs : List (Str × PyVal)) (hvals : valsStr outputs) :
    sentSec outputs = .ok (sentSecP outputs, sentFlag outputs) := by
  unfold sentSec sentSecP sentFlag
  cases hget : dictGet outputs (S "sentiment_analyzer") with
  | none => rfl
  | some v =>
    obtain ⟨s, rfl⟩ := valsStr_get hvals hget
    by_cases hlen : s.length > 20
    · simp [pyLen, pyStrOp, hlen]
    · simp [pyLen, hlen]

/-- Shape of the QA-primary answer under all-string inputs. -/
lemma qaPath_ok {rs : List ToolResult} (q : Str) {outputs : List (Str × PyVal)}
    (qs : Str) (hvals : valsStr outputs) {fs : List (Str × Str)}
    (hfs : trackFiles rs = .ok fs) :
    qaPath q rs outputs (PyVal.str qs) =
      .ok (TITLE q ++ qs ++ S "\n\n" ++ S "---\n\n" ++ FACTUAL_HDR ++
        srcSecP outputs (S "arxiv_summarizer") (S "### 🔬 Academic Papers Found\n\n") ++
        wikiSrcP outputs ++
        srcSecP outputs (S "news_fetcher") (S "### 📰 Recent News Articles\n\n") ++
        (if srcSecFlag outputs (S "arxiv_summarizer") || wikiFlag outputs ||
            srcSecFlag outputs (S "news_fetcher") then [] else NO_SOURCES_NOTE) ++
        resourcesSection fs ++ FOOTER_QA) := by
  unfold qaPath
  rw [srcSec_eq _ _ _ hvals, wikiSrcSec_eq _ hvals, srcSec_eq _ _ _ hvals, hfs]
  simp [pyStrOp]

/-- Shape of the multi-section fallback answer under all-string inputs. -/
lemma fallbackPath_ok {rs : List ToolResult} (q : Str) {outputs : List (Str × PyVal)}
    (quick : Str) (hvals : valsStr outputs) {fs : List (Str × Str)}
    (hfs : trackFiles rs = .ok fs) :
    fallbackPath q rs outputs quick =
      .ok (TITLE q ++ quick ++ bgSecP outputs ++ arxSecP q outputs ++
        newsSecP q outputs ++ sentSecP outputs ++
        (if wikiFlag outputs || arxFlag outputs || newsFlag outputs ||
            sentFlag outputs then
          S "## 🎯 Key Insights\n\n" ++ generate_key_insights q outputs ++ S "\n\n"
         else []) ++
        resourcesSection fs ++ FOOTER_MAIN) := by
  unfold fallbackPath
  rw [bgSec_eq _ hvals, arxSec_eq _ _ hvals, newsSec_eq _ _ hvals, sentSec_eq _ hvals, hfs]

/-! ## Helper lemmas for the claims -/

lemma suffix_app_left (a : Str) {x b : Str} (h : x <:+ b) : x <:+ a ++ b := by
  obtain ⟨t, rfl⟩ := h
  exact ⟨a ++ t, by simp⟩

/-- The executive summary always ends in the total-count clause when some
record succeeded. -/
lemma summary_suffix (q : Str) (rs : List ToolResult) (h : successfulTools rs ≠ []) :
    (S "Total of " ++ (Nat.repr (successfulTools rs).length).data ++
      S " information sources consulted.") <:+ create_executive_summary q rs := by
  unfold create_executive_summary
  rw [if_neg h]
  refine ⟨S "Regarding **" ++ q ++ S "**: " ++ summaryClauses (successfulTools rs), ?_⟩
  simp [List.append_assoc]

lemma foldl_fixed {rs : List ToolResult}
    (h : ∀ r ∈ rs, ∀ acc, collectStep acc r = acc) :
    ∀ acc, rs.foldl collectStep acc = acc := by
  induction rs with
  | nil => intro acc; rfl
  | cons r rest ih =>
    intro acc
    rw [List.foldl_cons, h r (List.mem_cons_self r rest)]
    exact ih (fun x hx => h x (List.mem_cons_of_mem r hx)) acc

/-! ## Claim C2 -/

/-- C2: the claim says `synthesize_answer` returns normally for every
well-typed input, including records whose output is a mapping.  It does not:
as soon as any record passes the outcome filter, the generated-file scan
calls `output.lower()` on every raw output (line 166), which raises
`AttributeError` for a mapping output.  Evaluation of the model at a single
success record carrying an (empty) mapping output. -/
theorem C2_mapping_output_raises :
    synthesize_answer (S "test query")
      [⟨S "pdf_parser", S "success", PyVal.dict [] []⟩] (PyVal.other []) =
      .error PyErr.attributeError := by
  rfl

/-! ## Claim C3 -/

/-- C3 counterexample: a success record whose output is the empty string is
excluded by the outcome filter (line 38 `if output and not
output.startswith('Error:')`), although the empty string does not start with
`"Error:"` — so the `"Error:"` prefix is not the only exclusion for text. -/
theorem C3_counterexample :
    collectOutputs [⟨S "qa_engine", S "success", PyVal.str []⟩] = [] ∧
    (S "Error:").isPrefixOf ([] : Str) = false := ⟨rfl, rfl⟩

/-- C3 amended: the outcome filter includes a record iff its status is
`"success"` and its output is a mapping, a non-string non-mapping object
(coerced to text), or a *non-empty* text not starting with `"Error:"`; in the
latter case the text itself is stored, and mapping outputs of success records
are always stored unchanged. -/
theorem C3_amended (r : ToolResult) :
    ((∃ v, dictGet (collectOutputs [r]) r.tool = some v) ↔
      r.status = S "success" ∧
        ((∃ ks rep, r.output = PyVal.dict ks rep) ∨
         (∃ rep, r.output = PyVal.other rep) ∨
         (∃ s, r.output = PyVal.str s ∧ s ≠ [] ∧ (S "Error:").isPrefixOf s = false))) ∧
    (∀ s, r.status = S "success" → r.output = PyVal.str s → s ≠ [] →
      (S "Error:").isPrefixOf s = false →
      dictGet (collectOutputs [r]) r.tool = some (PyVal.str s)) ∧
    (∀ ks rep, r.status = S "success" → r.output = PyVal.dict ks rep →
      dictGet (collectOutputs [r]) r.tool = some (PyVal.dict ks rep)) := by
  have hone : collectOutputs [r] = collectStep [] r := by
    simp [collectOutputs]
  have hget1 : ∀ v : PyVal, dictGet [(r.tool, v)] r.tool = some v := by
    intro v
    simp [dictGet]
  by_cases hst : r.status = S "success"
  · cases ho : r.output with
    | str s =>
      by_cases hc : s ≠ [] ∧ (S "Error:").isPrefixOf s = false
      · have hcoll : collectOutputs [r] = [(r.tool, PyVal.str s)] := by
          rw [hone]
          simp [collectStep, hst, ho, hc, dictSet]
        refine ⟨?_, ?_, ?_⟩
        · rw [hcoll]
          constructor
          · intro _
            exact ⟨hst, Or.inr (Or.inr ⟨s, rfl, hc.1, hc.2⟩)⟩
          · intro _
            exact ⟨PyVal.str s, hget1 _⟩
        · intro s' _ ho' _ _
          injection ho' with h
          subst h
          rw [hcoll]
          exact hget1 _
        · intro ks rep _ ho'
          simp at ho'
      · have hcoll : collectOutputs [r] = [] := by
          rw [hone]
          simp [collectStep, hst, ho, if_neg hc]
        refine ⟨?_, ?_, ?_⟩
        · rw [hcoll]
          constructor
          · intro ⟨v, hv⟩
            cases hv
          · rintro ⟨-, hdisj⟩
            rcases hdisj with ⟨ks, rep, ho'⟩ | ⟨rep, ho'⟩ | ⟨s', ho', hne, hpre⟩
            · simp at ho'
            · simp at ho'
            · injection ho' with h
              subst h
              exact absurd ⟨hne, hpre⟩ hc
        · intro s' _ ho' hne hpre
          injection ho' with h
          subst h
          exact absurd ⟨hne, hpre⟩ hc
        · intro ks rep _ ho'
          simp at ho'
    | dict ks rep =>
      have hcoll : collectOutputs [r] = [(r.tool, PyVal.dict ks rep)] := by
        rw [hone]
        simp [collectStep, hst, ho, dictSet]
      refine ⟨?_, ?_, ?_⟩
      · rw [hcoll]
        constructor
        · intro _
          exact ⟨hst, Or.inl ⟨ks, rep, rfl⟩⟩
        · intro _
          exact ⟨PyVal.dict ks rep, hget1 _⟩
      · intro s' _ ho' _ _
        simp at ho'
      · intro ks' rep' _ ho'
        injection ho' with h1 h2
        subst h1
        subst h2
        rw [hcoll]
        exact hget1 _
    | other rep =>
      have hcoll : collectOutputs [r] = [(r.tool, PyVal.str rep)] := by
        rw [hone]
        simp [collectStep, hst, ho, dictSet]
      refine ⟨?_, ?_, ?_⟩
      · rw [hcoll]
        constructor
        · intro _
          exact ⟨hst, Or.inr (Or.inl ⟨rep, rfl⟩)⟩
        · intro _
          exact ⟨PyVal.str rep, hget1 _⟩
      · intro s' _ ho' _ _
        simp at ho'
      · intro ks rep' _ ho'
        simp at ho'
  · have hcoll : collectOutputs [r] = [] := by
      rw [hone]
      simp [collectStep, hst]
    refine ⟨?_, ?_, ?_⟩
    · rw [hcoll]
      constructor
      · intro ⟨v, hv⟩
        cases hv
      · rintro ⟨hs, -⟩
        exact absurd hs hst
    · intro s' hs' _ _ _
      exact absurd hs' hst
    · intro ks rep hs' _
      exact absurd hs' hst

/-! ## Claim C4 -/

/-- C4: when every record failed, or every successful output is an
`"Error:"`-prefixed text, the outcome filter ends up empty and
`synthesize_answer` returns exactly the fixed no-results notice, raising
nothing. -/
theorem C4_total_failure (q : Str) (rs : List ToolResult) (plan : PyVal)
    (h : (∀ r ∈ rs, r.status = S "failure") ∨
      (∀ r ∈ rs, r.status = S "success" →
        ∃ s, r.output = PyVal.str s ∧ (S "Error:").isPrefixOf s = true)) :
    synthesize_answer q rs plan = .ok NO_RESULTS := by
  have hfix : ∀ r ∈ rs, ∀ acc, collectStep acc r = acc := by
    intro r hr acc
    rcases h with h | h
    · have hst : r.status ≠ S "success" := by
        rw [h r hr]
        decide
      simp [collectStep, hst]
    · by_cases hst : r.status = S "success"
      · obtain ⟨s, hs, hpre⟩ := h r hr hst
        simp [collectStep, hst, hs, hpre]
      · simp [collectStep, hst]
  have hempty : collectOutputs rs = [] := foldl_fixed hfix []
  simp [synthesize_answer, hempty]

theorem C4_total_failure_witness :
    (∀ r ∈ ([⟨S "qa_engine", S "failure", PyVal.str (S "timeout")⟩,
        ⟨S "news_fetcher", S "failure", PyVal.str (S "no api key")⟩] : List ToolResult),
      r.status = S "failure") ∧
    synthesize_answer (S "any query")
      [⟨S "qa_engine", S "failure", PyVal.str (S "timeout")⟩,
       ⟨S "news_fetcher", S "failure", PyVal.str (S "no api key")⟩]
      (PyVal.other []) = .ok NO_RESULTS :=
  ⟨by decide, C4_total_failure _ _ _ (Or.inl (by decide))⟩

/-! ## Claim C8 -/

/-- C8: three successful records with tools `qa_engine`, `unknown_tool_x`,
`wikipedia_search` all count toward the summary total (3), although the
unknown tool contributes no clause. -/
theorem C8_category_counting (q : Str) (o1 o2 o3 : PyVal) :
    (successfulTools [⟨S "qa_engine", S "success", o1⟩,
        ⟨S "unknown_tool_x", S "success", o2⟩,
        ⟨S "wikipedia_search", S "success", o3⟩]).length = 3 ∧
    (S "Total of 3 information sources consulted.") <:+
      create_executive_summary q
        [⟨S "qa_engine", S "success", o1⟩,
         ⟨S "unknown_tool_x", S "success", o2⟩,
         ⟨S "wikipedia_search", S "success", o3⟩] := by
  have hst : successfulTools [⟨S "qa_engine", S "success", o1⟩,
      ⟨S "unknown_tool_x", S "success", o2⟩,
      ⟨S "wikipedia_search", S "success", o3⟩] =
      [S "qa_engine", S "unknown_tool_x", S "wikipedia_search"] := by
    simp [successfulTools, List.filter]
  constructor
  · rw [hst]
    rfl
  · have hsuf := summary_suffix q
      [⟨S "qa_engine", S "success", o1⟩,
       ⟨S "unknown_tool_x", S "success", o2⟩,
       ⟨S "wikipedia_search", S "success", o3⟩]
      (by rw [hst]; simp)
    rw [hst] at hsuf
    have heq : S "Total of " ++
        (Nat.repr ([S "qa_engine", S "unknown_tool_x", S "wikipedia_search"] :
          List Str).length).data ++
        S " information sources consulted." =
        S "Total of 3 information sources consulted." := by decide
    rw [heq] at hsuf
    exact hsuf

/-! ## Claim C10 -/

/-- C10: a single success record with an `"Error:"`-prefixed text output is
dropped by the answer's outcome filter (no-results notice) but still counted
by the summary's success filter (total of 1). -/
theorem C10_error_prefix_divergence (q tool s : Str) (plan : PyVal)
    (h : (S "Error:").isPrefixOf s = true) :
    synthesize_answer q [⟨tool, S "success", PyVal.str s⟩] plan = .ok NO_RESULTS ∧
    (S "Total of 1 information sources consulted.") <:+
      create_executive_summary q [⟨tool, S "success", PyVal.str s⟩] := by
  constructor
  · have hempty : collectOutputs [⟨tool, S "success", PyVal.str s⟩] = [] := by
      simp [collectOutputs, collectStep, h]
    simp [synthesize_answer, hempty]
  · have hst : successfulTools [⟨tool, S "success", PyVal.str s⟩] = [tool] := by
      simp [successfulTools, List.filter]
    have hsuf := summary_suffix q [⟨tool, S "success", PyVal.str s⟩]
      (by rw [hst]; simp)
    rw [hst] at hsuf
    have hlen : ([tool] : List Str).length = 1 := rfl
    rw [hlen] at hsuf
    have heq : S "Total of " ++ (Nat.repr 1).data ++
        S " information sources consulted." =
        S "Total of 1 information sources consulted." := by decide
    rw [heq] at hsuf
    exact hsuf

theorem C10_error_prefix_divergence_witness :
    (S "Error:").isPrefixOf (S "Error: upstream failure") = true ∧
    (synthesize_answer (S "q")
        [⟨S "qa_engine", S "success", PyVal.str (S "Error: upstream failure")⟩]
        (PyVal.other []) = .ok NO_RESULTS ∧
      (S "Total of 1 information sources consulted.") <:+
        create_executive_summary (S "q")
          [⟨S "qa_engine", S "success", PyVal.str (S "Error: upstream failure")⟩]) :=
  ⟨by decide, C10_error_prefix_divergence (S "q") (S "qa_engine")
    (S "Error: upstream failure") (PyVal.other []) (by decide)⟩

/-! ## Dispatch of `synthesize_answer` into its three strategies -/

lemma synth_no_qa {q : Str} {rs : List ToolResult} {plan : PyVal}
    (hne : collectOutputs rs ≠ [])
    (hqa : dictGet (collectOutputs rs) (S "qa_engine") = none) :
    synthesize_answer q rs plan = fallbackPath q rs (collectOutputs rs) [] := by
  simp [synthesize_answer, hne, hqa]

lemma synth_quick {q : Str} {rs : List ToolResult} {plan : PyVal} {qa : Str}
    (hne : collectOutputs rs ≠ [])
    (hqa : dictGet (collectOutputs rs) (S "qa_engine") = some (PyVal.str qa))
    (h : qa.length ≤ 300 ∨ (S "I'm sorry").isPrefixOf qa = true) :
    synthesize_answer q rs plan =
      fallbackPath q rs (collectOutputs rs) (quickAnswer (PyVal.str qa)) := by
  rcases h with h | h
  · have hlen : ¬ qa.length > 300 := by omega
    simp [synthesize_answer, hne, hqa, pyLen, hlen]
  · by_cases hlen : qa.length > 300
    · simp [synthesize_answer, hne, hqa, pyLen, pyStrAttr, hlen, h]
    · simp [synthesize_answer, hne, hqa, pyLen, hlen]

lemma synth_qa_primary {q : Str} {rs : List ToolResult} {plan : PyVal} {qa : Str}
    (hne : collectOutputs rs ≠ [])
    (hqa : dictGet (collectOutputs rs) (S "qa_engine") = some (PyVal.str qa))
    (hlen : qa.length > 300) (href : (S "I'm sorry").isPrefixOf qa = false) :
    synthesize_answer q rs plan = qaPath q rs (collectOutputs rs) (PyVal.str qa) := by
  simp [synthesize_answer, hne, hqa, pyLen, pyStrAttr, hlen, href]

lemma q_infix_TITLE (q rest : Str) : q <:+: TITLE q ++ rest :=
  infix_app_right rest ⟨S "# 📖 Answer to: ", S "\n\n", rfl⟩

lemma TITLE_ne_nil (q : Str) : TITLE q ≠ [] := by
  unfold TITLE
  exact List.append_ne_nil_of_right_ne_nil _ (by decide)

/-! ## Claim C1 -/

/-- C1 counterexample: on the empty record sequence the answer is the fixed
no-results notice, which does not contain the query string — the claim "for
every sequence (including the empty one) the result contains the literal
query" is false. -/
theorem C1_counterexample :
    synthesize_answer (S "quantum computing") [] (PyVal.other []) = .ok NO_RESULTS ∧
    ¬ (S "quantum computing") <:+: NO_RESULTS :=
  ⟨rfl, not_infix_of_listContains _ _ (by decide)⟩

/-- C1 amended: for record sequences with string outputs `synthesize_answer`
returns non-empty text; the text contains the literal query whenever at least
one record passes the outcome filter, and otherwise is the fixed no-results
notice (which need not contain the query). -/
theorem C1_amended (q : Str) (rs : List ToolResult) (plan : PyVal)
    (hall : allStr rs) :
    ∃ a, synthesize_answer q rs plan = .ok a ∧ a ≠ [] ∧
      (collectOutputs rs = [] → a = NO_RESULTS) ∧
      (collectOutputs rs ≠ [] → q <:+: a) := by
  by_cases hemp : collectOutputs rs = []
  · exact ⟨NO_RESULTS, by simp [synthesize_answer, hemp], by decide,
      fun _ => rfl, fun h => absurd hemp h⟩
  · obtain ⟨fs, hfs, -⟩ := trackFiles_ok hall
    have hvals := valsStr_collect hall
    have main : ∃ rest, synthesize_answer q rs plan = .ok (TITLE q ++ rest) := by
      cases hqa : dictGet (collectOutputs rs) (S "qa_engine") with
      | none =>
        rw [synth_no_qa hemp hqa, fallbackPath_ok q [] hvals hfs]
        simp only [List.append_assoc]
        exact ⟨_, rfl⟩
      | some v =>
        obtain ⟨qa, rfl⟩ := valsStr_get hvals hqa
        by_cases hlen : qa.length > 300
        · by_cases href : (S "I'm sorry").isPrefixOf qa = true
          · rw [synth_quick hemp hqa (Or.inr href),
              fallbackPath_ok q (quickAnswer (PyVal.str qa)) hvals hfs]
            simp only [List.append_assoc]
            exact ⟨_, rfl⟩
          · have href2 : (S "I'm sorry").isPrefixOf qa = false := by
              cases h2 : (S "I'm sorry").isPrefixOf qa
              · rfl
              · exact absurd h2 href
            rw [synth_qa_primary hemp hqa hlen href2,
              qaPath_ok q qa hvals hfs]
            simp only [List.append_assoc]
            exact ⟨_, rfl⟩
        · rw [synth_quick hemp hqa (Or.inl (by omega)),
            fallbackPath_ok q (quickAnswer (PyVal.str qa)) hvals hfs]
          simp only [List.append_assoc]
          exact ⟨_, rfl⟩
    obtain ⟨rest, hmain⟩ := main
    exact ⟨TITLE q ++ rest, hmain,
      List.append_ne_nil_of_left_ne_nil (TITLE_ne_nil q) rest,
      fun h => absurd h hemp, fun _ => q_infix_TITLE q rest⟩

theorem C1_amended_witness :
    allStr [⟨S "wikipedia_search", S "success",
      PyVal.str (S "Paris is the capital of France.")⟩] ∧
    ∃ a, synthesize_answer (S "capital of France")
        [⟨S "wikipedia_search", S "success",
          PyVal.str (S "Paris is the capital of France.")⟩]
        (PyVal.other []) = .ok a ∧ a ≠ [] ∧
      (collectOutputs [⟨S "wikipedia_search", S "success",
        PyVal.str (S "Paris is the capital of France.")⟩] = [] → a = NO_RESULTS) ∧
      (collectOutputs [⟨S "wikipedia_search", S "success",
        PyVal.str (S "Paris is the capital of France.")⟩] ≠ [] →
        (S "capital of France") <:+: a) := by
  have hallW : allStr [⟨S "wikipedia_search", S "success",
      PyVal.str (S "Paris is the capital of France.")⟩] := by
    intro r hr
    rw [List.mem_singleton] at hr
    subst hr
    exact ⟨_, rfl⟩
  exact ⟨hallW, C1_amended _ _ _ hallW⟩

/-! ## Claim C7 -/

lemma trackFiles_chart {r0 : ToolResult} {s0 : Str}
    (hout : r0.output = PyVal.str s0)
    (hcond : (listContains (S "successfully created") (lowerStr s0)
        || listContains (S "generated") (lowerStr s0)) = true)
    (hpng : (listContains (S ".png") s0 || listContains (S "Chart") s0) = true) :
    ∀ (rs : List ToolResult), allStr rs → r0 ∈ rs →
      ∀ acc, ∃ fs, trackFilesAux acc rs = .ok fs ∧ (S "chart", s0) ∈ fs := by
  intro rs
  induction rs with
  | nil =>
    intro _ h
    cases h
  | cons r rest ih =>
    intro hall hr0 acc
    have hall' : allStr rest := fun x hx => hall x (List.mem_cons_of_mem r hx)
    rcases List.mem_cons.mp hr0 with rfl | hr0'
    · have hstep : scanStep acc r0 = .ok (acc ++ [(S "chart", s0)]) := by
        simp [scanStep, hout, hcond, hpng]
      obtain ⟨fs, hfs, hmono, -⟩ :=
        trackFilesAux_ok rest hall' (acc ++ [(S "chart", s0)])
      refine ⟨fs, ?_, hmono _ (by simp)⟩
      simpa [trackFilesAux, hstep] using hfs
    · obtain ⟨s1, hs1⟩ := hall r (List.mem_cons_self r rest)
      rcases scanStep_cases acc hs1 with h | h | h
      · obtain ⟨fs, hfs, hmem⟩ := ih hall' hr0' acc
        exact ⟨fs, by simpa [trackFilesAux, h] using hfs, hmem⟩
      · obtain ⟨fs, hfs, hmem⟩ := ih hall' hr0' (acc ++ [(S "chart", s1)])
        exact ⟨fs, by simpa [trackFilesAux, h] using hfs, hmem⟩
      · obtain ⟨fs, hfs, hmem⟩ := ih hall' hr0' (acc ++ [(S "pdf", s1)])
        exact ⟨fs, by simpa [trackFilesAux, h] using hfs, hmem⟩

lemma renderFiles_has_chart {s0 : Str} :
    ∀ (fs : List (Str × Str)) (acc : Str),
      ((S "chart", s0) ∈ fs ∨ (S "📈 " ++ s0 ++ S "\n") <:+: acc) →
      (S "📈 " ++ s0 ++ S "\n") <:+: fs.foldl renderFileStep acc := by
  intro fs
  induction fs with
  | nil =>
    intro acc h
    rcases h with h | h
    · cases h
    · exact h
  | cons ft rest ih =>
    intro acc h
    rw [List.foldl_cons]
    apply ih
    rcases h with h | h
    · rcases List.mem_cons.mp h with heq | h'
      · right
        rw [← heq]
        refine ⟨acc, [], ?_⟩
        simp [renderFileStep, List.append_assoc]
      · exact Or.inl h'
    · right
      have hsplit : renderFileStep acc ft = acc ++
          (if ft.1 = S "chart" then S "📈 " ++ ft.2 ++ S "\n"
           else S "📄 " ++ ft.2 ++ S "\n") := by
        unfold renderFileStep
        split
        · simp [List.append_assoc]
        · simp [List.append_assoc]
      rw [hsplit]
      exact infix_app_right _ h

lemma resourcesSection_chart {s0 : Str} {fs : List (Str × Str)}
    (h : (S "chart", s0) ∈ fs) :
    (S "📈 " ++ s0 ++ S "\n") <:+: resourcesSection fs := by
  have hne : fs ≠ [] := by
    intro h0
    rw [h0] at h
    cases h
  unfold resourcesSection
  rw [if_neg hne]
  exact infix_app_right _ (infix_app_left _ (renderFiles_has_chart fs [] (Or.inl h)))

/-- C7: the generated-resource scan is not gated by record status.  A failed
record whose output text contains `"successfully created chart.png"` still
contributes its chart line to the Generated Resources section of the answer
(whenever an answer body is rendered at all, i.e. the outcome filter is
non-empty). -/
theorem C7_resource_scan (q : Str) (rs : List ToolResult) (plan : PyVal)
    (hall : allStr rs) (r0 : ToolResult) (hr0 : r0 ∈ rs) (s0 : Str)
    (hout : r0.output = PyVal.str s0) (_hst : r0.status = S "failure")
    (hsub : (S "successfully created chart.png") <:+: s0)
    (hne : collectOutputs rs ≠ []) :
    ∃ a, synthesize_answer q rs plan = .ok a ∧ (S "📈 " ++ s0 ++ S "\n") <:+: a := by
  have h1 : listContains (S "successfully created") (lowerStr s0) = true := by
    rw [listContains_iff]
    have hbase : (S "successfully created") <:+:
        (S "successfully created chart.png").map Char.toLower := by decide
    exact hbase.trans (hsub.map Char.toLower)
  have h2 : listContains (S ".png") s0 = true := by
    rw [listContains_iff]
    have hbase : (S ".png") <:+: (S "successfully created chart.png") := by decide
    exact hbase.trans hsub
  have hcond : (listContains (S "successfully created") (lowerStr s0)
      || listContains (S "generated") (lowerStr s0)) = true := by
    rw [h1]
    rfl
  have hpng : (listContains (S ".png") s0 || listContains (S "Chart") s0) = true := by
    rw [h2]
    rfl
  obtain ⟨fs, hfs, hchart⟩ := trackFiles_chart hout hcond hpng rs hall hr0 []
  have hfs' : trackFiles rs = .ok fs := hfs
  have hres := resourcesSection_chart hchart
  have hvals := valsStr_collect hall
  cases hqa : dictGet (collectOutputs rs) (S "qa_engine") with
  | none =>
    rw [synth_no_qa hne hqa, fallbackPath_ok q [] hvals hfs']
    exact ⟨_, rfl, infix_app_right _ (infix_app_left _ hres)⟩
  | some v =>
    obtain ⟨qa, rfl⟩ := valsStr_get hvals hqa
    by_cases hlen : qa.length > 300
    · by_cases href : (S "I'm sorry").isPrefixOf qa = true
      · rw [synth_quick hne hqa (Or.inr href),
          fallbackPath_ok q (quickAnswer (PyVal.str qa)) hvals hfs']
        exact ⟨_, rfl, infix_app_right _ (infix_app_left _ hres)⟩
      · have href2 : (S "I'm sorry").isPrefixOf qa = false := by
          cases h2 : (S "I'm sorry").isPrefixOf qa
          · rfl
          · exact absurd h2 href
        rw [synth_qa_primary hne hqa hlen href2, qaPath_ok q qa hvals hfs']
        exact ⟨_, rfl, infix_app_right _ (infix_app_left _ hres)⟩
    · rw [synth_quick hne hqa (Or.inl (by omega)),
        fallbackPath_ok q (quickAnswer (PyVal.str qa)) hvals hfs']
      exact ⟨_, rfl, infix_app_right _ (infix_app_left _ hres)⟩

/-! ## Composition machinery for pattern-absence proofs -/

lemma not_infix_app_head_char {p xs ys : Str} {c : Char} (hc : c ∉ p)
    (hhead : ys.head? = some c) (h1 : ¬ p <:+: xs) (h2 : ¬ p <:+: ys) :
    ¬ p <:+: xs ++ ys := by
  refine not_infix_append_head ?_ h1 h2
  intro d hd
  rw [hhead] at hd
  injection hd with h
  rwa [← h]

lemma not_infix_app_last_char {p xs ys : Str} {c : Char} (hc : c ∉ p)
    (hlast : xs.getLast? = some c) (h1 : ¬ p <:+: xs) (h2 : ¬ p <:+: ys) :
    ¬ p <:+: xs ++ ys := by
  refine not_infix_append_last ?_ h1 h2
  intro d hd
  rw [hlast] at hd
  injection hd with h
  rwa [← h]

lemma getLast?_app_some {A B : Str} {c : Char} (h : B.getLast? = some c) :
    (A ++ B).getLast? = some c := by
  rw [List.getLast?_append, h]
  rfl

lemma not_infix_nil {p : Str} (hp : p ≠ []) : ¬ p <:+: ([] : Str) := by
  intro h
  exact hp (List.infix_nil.mp h)

lemma not_infix_of_all_mem {p l : Str} (hp : p ≠ [])
    (h : ∀ c ∈ l, c ∉ p) : ¬ p <:+: l := by
  intro hinf
  obtain ⟨c, hc⟩ : ∃ c, c ∈ p := by
    cases p with
    | nil => exact absurd rfl hp
    | cons c t => exact ⟨c, List.mem_cons_self c t⟩
  exact h c (hinf.subset hc) hc

lemma safeH_nil {p : Str} (hp : p ≠ []) : SafeH p [] :=
  ⟨not_infix_nil hp, Or.inl rfl⟩

lemma safeH_append {p x y : Str} (hx : SafeH p x) (hy : SafeH p y) :
    SafeH p (x ++ y) := by
  obtain ⟨hx1, hx2⟩ := hx
  obtain ⟨hy1, hy2⟩ := hy
  rcases hy2 with rfl | ⟨c, hc1, hc2⟩
  · rw [List.append_nil]
    exact ⟨hx1, hx2⟩
  · refine ⟨not_infix_app_head_char hc2 hc1 hx1 hy1, ?_⟩
    rcases hx2 with rfl | ⟨d, hd1, hd2⟩
    · rw [List.nil_append]
      exact Or.inr ⟨c, hc1, hc2⟩
    · right
      refine ⟨d, ?_, hd2⟩
      rw [List.head?_append, hd1]
      rfl

lemma safeH_prepend {p x y : Str} (hx : ¬ p <:+: x) (hy : SafeH p y) :
    ¬ p <:+: x ++ y := by
  obtain ⟨hy1, hy2⟩ := hy
  rcases hy2 with rfl | ⟨c, hc1, hc2⟩
  · rwa [List.append_nil]
  · exact not_infix_app_head_char hc2 hc1 hx hy1

/-! ## Claim C5: the QA-primary answer never renders the Key Insights section -/

lemma head?_app_some {A B : Str} {c : Char} (h : A.head? = some c) :
    (A ++ B).head? = some c := by
  rw [List.head?_append, h]
  rfl

lemma safeH_concrete {p x : Str} {c : Char} (h1 : ¬ p <:+: x)
    (hc : x.head? = some c) (hcp : c ∉ p) : SafeH p x :=
  ⟨h1, Or.inr ⟨c, hc, hcp⟩⟩

/-- A value read from the outputs dict inherits any pattern-absence hypothesis
placed on the raw record outputs. -/
lemma outputs_val_pure {rs : List ToolResult} (hall : allStr rs) {p : Str}
    (houts : ∀ r ∈ rs, ∀ s, r.output = PyVal.str s → ¬ p <:+: s)
    {key s : Str} (hget : dictGet (collectOutputs rs) key = some (PyVal.str s)) :
    ¬ p <:+: s := by
  obtain ⟨s', hs', r, hr, ho⟩ := collect_prov hall (dictGet_mem hget)
  injection hs' with h
  subst h
  exact houts r hr _ ho

lemma srcSecP_KI_safe (outputs : List (Str × PyVal)) (key hdr : Str)
    (hhd : hdr.head? = some '#') (hlast : hdr.getLast? = some '\n')
    (hsafe : ¬ S "Key Insights" <:+: hdr)
    (hpure : ∀ s, dictGet outputs key = some (PyVal.str s) →
      ¬ S "Key Insights" <:+: s) :
    SafeH (S "Key Insights") (srcSecP outputs key hdr) := by
  cases hget : dictGet outputs key with
  | none =>
    have h0 : srcSecP outputs key hdr = [] := by simp [srcSecP, hget]
    rw [h0]
    exact safeH_nil (by decide)
  | some v =>
    cases v with
    | str s =>
      by_cases hlen : s.length > 50
      · have h0 : srcSecP outputs key hdr = hdr ++ s ++ S "\n\n" := by
          simp [srcSecP, hget, hlen]
        rw [h0]
        refine safeH_concrete ?_ (head?_app_some (head?_app_some hhd)) (by decide)
        exact not_infix_app_head_char (show ('\n' : Char) ∉ S "Key Insights" by decide)
          (show (S "\n\n").head? = some '\n' by decide)
          (not_infix_app_last_char (show ('\n' : Char) ∉ S "Key Insights" by decide)
            hlast hsafe (hpure s hget))
          (by decide)
      · have h0 : srcSecP outputs key hdr = [] := by simp [srcSecP, hget, hlen]
        rw [h0]
        exact safeH_nil (by decide)
    | dict ks rep =>
      have h0 : srcSecP outputs key hdr = [] := by simp [srcSecP, hget]
      rw [h0]
      exact safeH_nil (by decide)
    | other rep =>
      have h0 : srcSecP outputs key hdr = [] := by simp [srcSecP, hget]
      rw [h0]
      exact safeH_nil (by decide)

lemma wikiSrcP_KI_safe (outputs : List (Str × PyVal))
    (hpure : ∀ s, dictGet outputs (S "wikipedia_search") = some (PyVal.str s) →
      ¬ S "Key Insights" <:+: s) :
    SafeH (S "Key Insights") (wikiSrcP outputs) := by
  cases hget : dictGet outputs (S "wikipedia_search") with
  | none =>
    have h0 : wikiSrcP outputs = [] := by simp [wikiSrcP, hget]
    rw [h0]
    exact safeH_nil (by decide)
  | some v =>
    cases v with
    | str s =>
      by_cases hlen : s.length > 50
      · by_cases hlen2 : s.length > 800
        · have h0 : wikiSrcP outputs = WIKI_HDR ++ s.take 800 ++ S "...\n\n" ++
              DETAILS_OPEN ++ s ++ DETAILS_CLOSE := by
            simp [wikiSrcP, hget, hlen, hlen2]
          rw [h0]
          refine safeH_concrete ?_
            (head?_app_some (head?_app_some (head?_app_some (head?_app_some
              (head?_app_some (show WIKI_HDR.head? = some '#' by decide))))))
            (by decide)
          refine not_infix_app_head_char
            (show ('\n' : Char) ∉ S "Key Insights" by decide)
            (show DETAILS_CLOSE.head? = some '\n' by decide) ?_ (by decide)
          refine not_infix_app_last_char
            (show ('\n' : Char) ∉ S "Key Insights" by decide)
            (getLast?_app_some (show DETAILS_OPEN.getLast? = some '\n' by decide))
            ?_ (hpure s hget)
          refine not_infix_app_head_char
            (show ('<' : Char) ∉ S "Key Insights" by decide)
            (show DETAILS_OPEN.head? = some '<' by decide) ?_ (by decide)
          refine not_infix_app_head_char
            (show ('.' : Char) ∉ S "Key Insights" by decide)
            (show (S "...\n\n").head? = some '.' by decide) ?_ (by decide)
          exact not_infix_app_last_char
            (show ('\n' : Char) ∉ S "Key Insights" by decide)
            (show WIKI_HDR.getLast? = some '\n' by decide) (by decide)
            (not_infix_take 800 (hpure s hget))
        · have h0 : wikiSrcP outputs = WIKI_HDR ++ s ++ S "\n\n" := by
            simp [wikiSrcP, hget, hlen, hlen2]
          rw [h0]
          refine safeH_concrete ?_
            (head?_app_some (head?_app_some
              (show WIKI_HDR.head? = some '#' by decide))) (by decide)
          exact not_infix_app_head_char
            (show ('\n' : Char) ∉ S "Key Insights" by decide)
            (show (S "\n\n").head? = some '\n' by decide)
            (not_infix_app_last_char
              (show ('\n' : Char) ∉ S "Key Insights" by decide)
              (show WIKI_HDR.getLast? = some '\n' by decide) (by decide)
              (hpure s hget))
            (by decide)
      · have h0 : wikiSrcP outputs = [] := by simp [wikiSrcP, hget, hlen]
        rw [h0]
        exact safeH_nil (by decide)
    | dict ks rep =>
      have h0 : wikiSrcP outputs = [] := by simp [wikiSrcP, hget]
      rw [h0]
      exact safeH_nil (by decide)
    | other rep =>
      have h0 : wikiSrcP outputs = [] := by simp [wikiSrcP, hget]
      rw [h0]
      exact safeH_nil (by decide)

lemma renderFiles_KI_safe :
    ∀ (fs : List (Str × Str)) (acc : Str),
      (∀ e ∈ fs, ¬ S "Key Insights" <:+: e.2) →
      ¬ S "Key Insights" <:+: acc → (acc = [] ∨ acc.getLast? = some '\n') →
      ¬ S "Key Insights" <:+: fs.foldl renderFileStep acc := by
  intro fs
  induction fs with
  | nil =>
    intro acc _ h _
    exact h
  | cons ft rest ih =>
    intro acc hpure hacc hend
    rw [List.foldl_cons]
    have hstep : ∀ g : Str, renderFileStep acc ft = acc ++ (g ++ (ft.2 ++ S "\n")) →
        ¬ S "Key Insights" <:+: g → noCrossL (S "Key Insights") g = true →
        (g.head? = some '📈' ∨ g.head? = some '📄') →
        ¬ S "Key Insights" <:+:
          List.foldl renderFileStep (renderFileStep acc ft) rest := by
      intro g hsplit hg hgc hghd
      rw [hsplit]
      have hblock : ¬ S "Key Insights" <:+: g ++ (ft.2 ++ S "\n") := by
        refine not_infix_append_noCrossL hgc hg ?_
        exact not_infix_app_head_char
          (show ('\n' : Char) ∉ S "Key Insights" by decide)
          (show (S "\n").head? = some '\n' by decide)
          (hpure ft (List.mem_cons_self ft rest)) (by decide)
      refine ih _ (fun e he => hpure e (List.mem_cons_of_mem ft he)) ?_ ?_
      · rcases hghd with hghd | hghd
        · exact not_infix_app_head_char
            (show ('📈' : Char) ∉ S "Key Insights" by decide)
            (head?_app_some hghd) hacc hblock
        · exact not_infix_app_head_char
            (show ('📄' : Char) ∉ S "Key Insights" by decide)
            (head?_app_some hghd) hacc hblock
      · right
        exact getLast?_app_some (getLast?_app_some (getLast?_app_some (by decide)))
    by_cases hft : ft.1 = S "chart"
    · refine hstep (S "📈 ") ?_ (by decide) (by decide) (Or.inl (by decide))
      simp [renderFileStep, hft, List.append_assoc]
    · refine hstep (S "📄 ") ?_ (by decide) (by decide) (Or.inr (by decide))
      simp [renderFileStep, hft, List.append_assoc]

lemma resourcesSection_KI_safe {fs : List (Str × Str)}
    (hpure : ∀ e ∈ fs, ¬ S "Key Insights" <:+: e.2) :
    SafeH (S "Key Insights") (resourcesSection fs) := by
  unfold resourcesSection
  by_cases hfs : fs = []
  · rw [if_pos hfs]
    exact safeH_nil (by decide)
  · rw [if_neg hfs]
    refine safeH_concrete ?_
      (head?_app_some (head?_app_some
        (show (S "## 📊 Generated Resources\n\n").head? = some '#' by decide)))
      (by decide)
    refine not_infix_app_head_char
      (show ('\n' : Char) ∉ S "Key Insights" by decide)
      (show (S "\n").head? = some '\n' by decide) ?_ (by decide)
    refine not_infix_app_last_char
      (show ('\n' : Char) ∉ S "Key Insights" by decide)
      (show (S "## 📊 Generated Resources\n\n").getLast? = some '\n' by decide)
      (by decide) ?_
    exact renderFiles_KI_safe fs [] hpure (not_infix_nil (by decide)) (Or.inl rfl)

/-- C5: whenever the filtered outputs hold a `qa_engine` text longer than 300
characters that is not refusal-prefixed, the answer contains that text
verbatim and never contains the "Key Insights" heading (the multi-section
fallback never runs).  The query and the record outputs are assumed not to
contain the heading text themselves. -/
theorem C5_qa_primary (q : Str) (rs : List ToolResult) (plan : PyVal)
    (hall : allStr rs) (qa : Str)
    (hqa : dictGet (collectOutputs rs) (S "qa_engine") = some (PyVal.str qa))
    (hlen : qa.length > 300) (href : (S "I'm sorry").isPrefixOf qa = false)
    (hq : ¬ S "Key Insights" <:+: q)
    (houts : ∀ r ∈ rs, ∀ s, r.output = PyVal.str s → ¬ S "Key Insights" <:+: s) :
    ∃ a, synthesize_answer q rs plan = .ok a ∧ qa <:+: a ∧
      ¬ S "Key Insights" <:+: a := by
  have hne : collectOutputs rs ≠ [] := by
    intro h0
    rw [h0] at hqa
    simp [dictGet] at hqa
  obtain ⟨fs, hfs, hfsprov⟩ := trackFiles_ok hall
  have hvals := valsStr_collect hall
  have hpureOut : ∀ key s, dictGet (collectOutputs rs) key = some (PyVal.str s) →
      ¬ S "Key Insights" <:+: s :=
    fun _ s hget => outputs_val_pure hall houts hget
  rw [synth_qa_primary hne hqa hlen href, qaPath_ok q qa hvals hfs]
  refine ⟨_, rfl, ?_, ?_⟩
  · simp only [List.append_assoc]
    exact List.infix_append' _ _ _
  · simp only [List.append_assoc]
    have harx : SafeH (S "Key Insights")
        (srcSecP (collectOutputs rs) (S "arxiv_summarizer")
          (S "### 🔬 Academic Papers Found\n\n")) :=
      srcSecP_KI_safe _ _ _ (by decide) (by decide) (by decide)
        (hpureOut (S "arxiv_summarizer"))
    have hwik : SafeH (S "Key Insights") (wikiSrcP (collectOutputs rs)) :=
      wikiSrcP_KI_safe _ (hpureOut (S "wikipedia_search"))
    have hnws : SafeH (S "Key Insights")
        (srcSecP (collectOutputs rs) (S "news_fetcher")
          (S "### 📰 Recent News Articles\n\n")) :=
      srcSecP_KI_safe _ _ _ (by decide) (by decide) (by decide)
        (hpureOut (S "news_fetcher"))
    have hnote : SafeH (S "Key Insights")
        (if srcSecFlag (collectOutputs rs) (S "arxiv_summarizer") ||
            wikiFlag (collectOutputs rs) ||
            srcSecFlag (collectOutputs rs) (S "news_fetcher") then []
         else NO_SOURCES_NOTE) := by
      split
      · exact safeH_nil (by decide)
      · exact safeH_concrete (by decide)
          (show NO_SOURCES_NOTE.head? = some '*' by decide) (by decide)
    have hres : SafeH (S "Key Insights") (resourcesSection fs) := by
      refine resourcesSection_KI_safe fun e he => ?_
      obtain ⟨r, hr, ho⟩ := hfsprov e he
      exact houts r hr e.2 ho
    have hREST : SafeH (S "Key Insights")
        (S "\n\n" ++ (S "---\n\n" ++ (FACTUAL_HDR ++
          (srcSecP (collectOutputs rs) (S "arxiv_summarizer")
            (S "### 🔬 Academic Papers Found\n\n") ++
          (wikiSrcP (collectOutputs rs) ++
          (srcSecP (collectOutputs rs) (S "news_fetcher")
            (S "### 📰 Recent News Articles\n\n") ++
          ((if srcSecFlag (collectOutputs rs) (S "arxiv_summarizer") ||
              wikiFlag (collectOutputs rs) ||
              srcSecFlag (collectOutputs rs) (S "news_fetcher") then []
            else NO_SOURCES_NOTE) ++
          (resourcesSection fs ++ FOOTER_QA)))))))) := by
      refine safeH_append (safeH_concrete (by decide)
        (show (S "\n\n").head? = some '\n' by decide) (by decide)) ?_
      refine safeH_append (safeH_concrete (by decide)
        (show (S "---\n\n").head? = some '-' by decide) (by decide)) ?_
      refine safeH_append (safeH_concrete (by decide)
        (show FACTUAL_HDR.head? = some '#' by decide) (by decide)) ?_
      refine safeH_append harx ?_
      refine safeH_append hwik ?_
      refine safeH_append hnws ?_
      refine safeH_append hnote ?_
      exact safeH_append hres (safeH_concrete (by decide)
        (show FOOTER_QA.head? = some '-' by decide) (by decide))
    have hTitleSafe : ¬ S "Key Insights" <:+: TITLE q := by
      unfold TITLE
      exact not_infix_app_head_char
        (show ('\n' : Char) ∉ S "Key Insights" by decide)
        (show (S "\n\n").head? = some '\n' by decide)
        (not_infix_append_noCrossL (by decide) (by decide) hq) (by decide)
    have hTitleLast : (TITLE q).getLast? = some '\n' := by
      unfold TITLE
      exact getLast?_app_some (by decide)
    exact not_infix_app_last_char
      (show ('\n' : Char) ∉ S "Key Insights" by decide) hTitleLast hTitleSafe
      (safeH_prepend (hpureOut (S "qa_engine") qa hqa) hREST)

theorem C5_qa_primary_witness :
    ∃ a, synthesize_answer (S "why is the sky blue")
        [⟨S "qa_engine", S "success", PyVal.str (List.replicate 301 'x')⟩]
        (PyVal.other []) = .ok a ∧
      (List.replicate 301 'x' : Str) <:+: a ∧
      ¬ S "Key Insights" <:+: a := by
  have hall : allStr
      [⟨S "qa_engine", S "success", PyVal.str (List.replicate 301 'x')⟩] := by
    intro r hr
    rw [List.mem_singleton] at hr
    subst hr
    exact ⟨_, rfl⟩
  have houts : ∀ r ∈ ([⟨S "qa_engine", S "success",
      PyVal.str (List.replicate 301 'x')⟩] : List ToolResult),
      ∀ s, r.output = PyVal.str s → ¬ S "Key Insights" <:+: s := by
    intro r hr s ho
    rw [List.mem_singleton] at hr
    subst hr
    injection ho with h
    subst h
    decide
  exact C5_qa_primary _ _ _ hall (List.replicate 301 'x') (by decide) (by decide)
    (by decide) (by decide) houts

/-! ## Claim C6 -/

/-- C6: in the QA-primary case, a Wikipedia output of exactly 850 characters
is shown truncated to its first 800 characters plus the "..." marker, and
appears once more in full inside the collapsible details block. -/
theorem C6_wiki_truncation (q : Str) (rs : List ToolResult) (plan : PyVal)
    (hall : allStr rs) (qa w : Str)
    (hqa : dictGet (collectOutputs rs) (S "qa_engine") = some (PyVal.str qa))
    (hlen : qa.length > 300) (href : (S "I'm sorry").isPrefixOf qa = false)
    (hw : dictGet (collectOutputs rs) (S "wikipedia_search") = some (PyVal.str w))
    (hwlen : w.length = 850) :
    ∃ a, synthesize_answer q rs plan = .ok a ∧
      (w.take 800 ++ S "...") <:+: a ∧
      (DETAILS_OPEN ++ w ++ DETAILS_CLOSE) <:+: a := by
  have hne : collectOutputs rs ≠ [] := by
    intro h0
    rw [h0] at hqa
    simp [dictGet] at hqa
  obtain ⟨fs, hfs, -⟩ := trackFiles_ok hall
  have hvals := valsStr_collect hall
  rw [synth_qa_primary hne hqa hlen href, qaPath_ok q qa hvals hfs]
  have hwik : wikiSrcP (collectOutputs rs) = WIKI_HDR ++ w.take 800 ++
      S "...\n\n" ++ DETAILS_OPEN ++ w ++ DETAILS_CLOSE := by
    have h1 : w.length > 50 := by omega
    have h2 : w.length > 800 := by omega
    simp [wikiSrcP, hw, h1, h2]
  have hloc1 : (w.take 800 ++ S "...") <:+: wikiSrcP (collectOutputs rs) := by
    rw [hwik]
    have hsplit : S "...\n\n" = S "..." ++ S "\n\n" := by decide
    rw [hsplit]
    refine ⟨WIKI_HDR, S "\n\n" ++ (DETAILS_OPEN ++ (w ++ DETAILS_CLOSE)), ?_⟩
    simp [List.append_assoc]
  have hloc2 : (DETAILS_OPEN ++ w ++ DETAILS_CLOSE) <:+:
      wikiSrcP (collectOutputs rs) := by
    rw [hwik]
    refine ⟨WIKI_HDR ++ w.take 800 ++ S "...\n\n", [], ?_⟩
    simp [List.append_assoc]
  refine ⟨_, rfl, ?_, ?_⟩
  · exact hloc1.trans (infix_app_right _ (infix_app_right _ (infix_app_right _
      (infix_app_right _ ((List.suffix_append _ _).isInfix)))))
  · exact hloc2.trans (infix_app_right _ (infix_app_right _ (infix_app_right _
      (infix_app_right _ ((List.suffix_append _ _).isInfix)))))

theorem C6_wiki_truncation_witness :
    ∃ a, synthesize_answer (S "history of Rome")
        [⟨S "qa_engine", S "success", PyVal.str (List.replicate 301 'x')⟩,
         ⟨S "wikipedia_search", S "success", PyVal.str (List.replicate 850 'a')⟩]
        (PyVal.other []) = .ok a ∧
      ((List.replicate 850 'a' : Str).take 800 ++ S "...") <:+: a ∧
      (DETAILS_OPEN ++ (List.replicate 850 'a' : Str) ++ DETAILS_CLOSE) <:+: a := by
  have hall : allStr
      [⟨S "qa_engine", S "success", PyVal.str (List.replicate 301 'x')⟩,
       ⟨S "wikipedia_search", S "success", PyVal.str (List.replicate 850 'a')⟩] := by
    intro r hr
    rcases List.mem_cons.mp hr with rfl | hr
    · exact ⟨_, rfl⟩
    · rcases List.mem_cons.mp hr with rfl | hr
      · exact ⟨_, rfl⟩
      · cases hr
  exact C6_wiki_truncation _ _ _ hall (List.replicate 301 'x')
    (List.replicate 850 'a') (by decide) (by decide) (by decide) (by decide)
    (by decide)

theorem C7_resource_scan_witness :
    collectOutputs [⟨S "chart_generator", S "failure",
        PyVal.str (S "successfully created chart.png")⟩,
      ⟨S "wikipedia_search", S "success", PyVal.str (S "Background text here")⟩] ≠ [] ∧
    ∃ a, synthesize_answer (S "make a chart")
        [⟨S "chart_generator", S "failure",
          PyVal.str (S "successfully created chart.png")⟩,
         ⟨S "wikipedia_search", S "success", PyVal.str (S "Background text here")⟩]
        (PyVal.other []) = .ok a ∧
      (S "📈 " ++ S "successfully created chart.png" ++ S "\n") <:+: a := by
  have hall : allStr
      [⟨S "chart_generator", S "failure",
        PyVal.str (S "successfully created chart.png")⟩,
       ⟨S "wikipedia_search", S "success", PyVal.str (S "Background text here")⟩] := by
    intro r hr
    rcases List.mem_cons.mp hr with rfl | hr
    · exact ⟨_, rfl⟩
    · rcases List.mem_cons.mp hr with rfl | hr
      · exact ⟨_, rfl⟩
      · cases hr
  refine ⟨by decide, ?_⟩
  exact C7_resource_scan _ _ _ hall _ (List.mem_cons_self _ _) _ rfl rfl
    List.infix_rfl (by decide)

/-! ## Claim C9 -/

/-- C9: the single-success fallback scenario.  For query "quantum computing"
and one wikipedia success record holding a 600-character usable text, the
answer shows the Background heading with the full text, a Key Insights
section naming Wikipedia, and the completion footer, and has no Factual
Sources section (the QA path is not taken). -/
theorem C9_single_wiki_scenario (w : Str) (hwlen : w.length = 600)
    (hpre : (S "Error:").isPrefixOf w = false)
    (hfs1 : listContains (S "successfully created") (lowerStr w) = false)
    (hfs2 : listContains (S "generated") (lowerStr w) = false)
    (hpure : ¬ S "Factual Sources" <:+: w) :
    ∃ a, synthesize_answer (S "quantum computing")
        [⟨S "wikipedia_search", S "success", PyVal.str w⟩] (PyVal.dict [] []) =
          .ok a ∧
      (S "## 📚 Background") <:+: a ∧ w <:+: a ∧
      (S "## 🎯 Key Insights") <:+: a ∧
      (S "✓ **Foundational knowledge** about quantum computing has been retrieved from Wikipedia") <:+: a ∧
      FOOTER_MAIN <:+: a ∧
      ¬ S "Factual Sources" <:+: a := by
  have hwne : w ≠ [] := by
    intro h
    rw [h] at hwlen
    simp at hwlen
  have hcoll : collectOutputs [⟨S "wikipedia_search", S "success", PyVal.str w⟩] =
      [(S "wikipedia_search", PyVal.str w)] := by
    simp [collectOutputs, collectStep, dictSet, hwne, hpre]
  have hqaget : dictGet (collectOutputs
      [⟨S "wikipedia_search", S "success", PyVal.str w⟩]) (S "qa_engine") = none := by
    rw [hcoll]
    rfl
  have hne : collectOutputs [⟨S "wikipedia_search", S "success", PyVal.str w⟩] ≠ [] := by
    rw [hcoll]
    simp
  have hvals : valsStr (collectOutputs
      [⟨S "wikipedia_search", S "success", PyVal.str w⟩]) := by
    rw [hcoll]
    intro kv hkv
    rw [List.mem_singleton] at hkv
    subst hkv
    exact ⟨w, rfl⟩
  have hscan : trackFiles [⟨S "wikipedia_search", S "success", PyVal.str w⟩] =
      .ok [] := by
    simp [trackFiles, trackFilesAux, scanStep, hfs1, hfs2]
  have hgetw : dictGet [(S "wikipedia_search", PyVal.str w)]
      (S "wikipedia_search") = some (PyVal.str w) := rfl
  have h50 : w.length > 50 := by omega
  have hbg : bgSecP (collectOutputs
      [⟨S "wikipedia_search", S "success", PyVal.str w⟩]) =
      S "## 📚 Background\n\n" ++ w ++ S "\n\n" := by
    rw [hcoll]
    simp [bgSecP, hgetw, h50]
  have harx : arxSecP (S "quantum computing") (collectOutputs
      [⟨S "wikipedia_search", S "success", PyVal.str w⟩]) = [] := by
    rw [hcoll]
    rfl
  have hnws : newsSecP (S "quantum computing") (collectOutputs
      [⟨S "wikipedia_search", S "success", PyVal.str w⟩]) = [] := by
    rw [hcoll]
    rfl
  have hsent : sentSecP (collectOutputs
      [⟨S "wikipedia_search", S "success", PyVal.str w⟩]) = [] := by
    rw [hcoll]
    rfl
  have hwflag : wikiFlag (collectOutputs
      [⟨S "wikipedia_search", S "success", PyVal.str w⟩]) = true := by
    rw [hcoll]
    simp [wikiFlag, hgetw, h50]
  have harxflag : arxFlag (collectOutputs
      [⟨S "wikipedia_search", S "success", PyVal.str w⟩]) = false := by
    rw [hcoll]
    rfl
  have hnwsflag : newsFlag (collectOutputs
      [⟨S "wikipedia_search", S "success", PyVal.str w⟩]) = false := by
    rw [hcoll]
    rfl
  have hsentflag : sentFlag (collectOutputs
      [⟨S "wikipedia_search", S "success", PyVal.str w⟩]) = false := by
    rw [hcoll]
    rfl
  have hgki : generate_key_insights (S "quantum computing") (collectOutputs
      [⟨S "wikipedia_search", S "success", PyVal.str w⟩]) =
      S "**Information Sources:**\n✓ **Foundational knowledge** about quantum computing has been retrieved from Wikipedia\n\nThis comprehensive analysis of **quantum computing** combines information from multiple authoritative sources to give you a complete picture." := by
    rw [hcoll]
    rfl
  have hanswer : synthesize_answer (S "quantum computing")
      [⟨S "wikipedia_search", S "success", PyVal.str w⟩] (PyVal.dict [] []) =
      .ok ((TITLE (S "quantum computing") ++ S "## 📚 Background\n\n") ++
        (w ++ (S "\n\n" ++ (S "## 🎯 Key Insights\n\n" ++
          (S "**Information Sources:**\n✓ **Foundational knowledge** about quantum computing has been retrieved from Wikipedia\n\nThis comprehensive analysis of **quantum computing** combines information from multiple authoritative sources to give you a complete picture." ++
          (S "\n\n" ++ FOOTER_MAIN)))))) := by
    rw [synth_no_qa hne hqaget, fallbackPath_ok (S "quantum computing") [] hvals hscan,
      hbg, harx, hnws, hsent, hwflag, harxflag, hnwsflag, hsentflag, hgki]
    simp [resourcesSection, List.append_assoc]
  refine ⟨_, hanswer, ?_, ?_, ?_, ?_, ?_, ?_⟩
  · exact infix_app_right _ (by decide)
  · exact List.infix_append' _ _ _
  · exact infix_app_left _ (infix_app_left _ (by decide))
  · exact infix_app_left _ (infix_app_left _ (by decide))
  · exact infix_app_left _ (infix_app_left _ (by decide))
  · refine not_infix_app_last_char
      (show ('\n' : Char) ∉ S "Factual Sources" by decide)
      (getLast?_app_some (show (S "## 📚 Background\n\n").getLast? = some '\n'
        by decide))
      (by decide) ?_
    exact not_infix_app_head_char
      (show ('\n' : Char) ∉ S "Factual Sources" by decide)
      (show (S "\n\n" ++ (S "## 🎯 Key Insights\n\n" ++
        (S "**Information Sources:**\n✓ **Foundational knowledge** about quantum computing has been retrieved from Wikipedia\n\nThis comprehensive analysis of **quantum computing** combines information from multiple authoritative sources to give you a complete picture." ++
        (S "\n\n" ++ FOOTER_MAIN)))).head? = some '\n' by decide)
      hpure (by decide)

theorem C9_single_wiki_scenario_witness :
    (List.replicate 600 'a' : Str).length = 600 ∧
    ∃ a, synthesize_answer (S "quantum computing")
        [⟨S "wikipedia_search", S "success", PyVal.str (List.replicate 600 'a')⟩]
        (PyVal.dict [] []) = .ok a ∧
      (S "## 📚 Background") <:+: a ∧ (List.replicate 600 'a' : Str) <:+: a ∧
      (S "## 🎯 Key Insights") <:+: a ∧
      (S "✓ **Foundational knowledge** about quantum computing has been retrieved from Wikipedia") <:+: a ∧
      FOOTER_MAIN <:+: a ∧
      ¬ S "Factual Sources" <:+: a :=
  ⟨by decide, C9_single_wiki_scenario (List.replicate 600 'a') (by decide)
    (by decide) (by decide) (by decide) (by decide)⟩
